import Mathlib

/-!
Checkout of the simple e-commerce backend (`simple-ecommerce-backend/orders.go`).

A shallow embedding of `createOrder` and of the stores it reads and writes
(`products`, `carts`, `orders`), followed by theorems about it.

Modelling conventions
* The three package-level slices are the fields of `Store`; a handler is a
  function from the store before the call to the store after the call and the
  HTTP response.
* Go `int` is the 64-bit two's-complement integer: fields of that type are
  `Int`s, and arithmetic on them wraps (`wrapInt`).
* Go `float64` is IEEE 754 binary64 (`Float64`): every multiplication,
  addition and conversion from `int` is rounded on its own to the nearest
  value, ties to even (no fused multiply-add, as on amd64).
* A pointer `&xs[i]` is the pair of the index `i` and the element; a write
  through the pointer is `List.set` at that index.
* The result of decoding the request body is an `Option`: `none` is a body
  that does not decode.
-/

namespace Shop

/-! ## float64 -/

/-- A value of the Go type `float64`: the finite value `(-1)^neg * m * 2^e`, an
infinity, or NaN. The finite values of the type are those with `m < 2^53` and
`-1074 ≤ e ≤ 971`, where `2^52 ≤ m` unless `e = -1074` (subnormal numbers and
the two zeros). -/
inductive Float64 where
  | finite (neg : Bool) (m : Nat) (e : Int)
  | inf (neg : Bool)
  | nan
deriving DecidableEq, Repr

/-- Number of binary digits of `n`, with `fuel` steps at most. -/
def bitLengthAux : Nat → Nat → Nat
  | 0, _ => 0
  | fuel + 1, n => if n = 0 then 0 else bitLengthAux fuel (n / 2) + 1

/-- Number of binary digits of `n`. -/
def bitLength (n : Nat) : Nat := bitLengthAux n n

/-- The integer nearest to `m / 2^k`, the even one of two at equal distance. -/
def shiftRound (m k : Nat) : Nat :=
  if k = 0 then m
  else if 2 ^ (k - 1) < m % 2 ^ k ∨ (m % 2 ^ k = 2 ^ (k - 1) ∧ m / 2 ^ k % 2 = 1) then
    m / 2 ^ k + 1
  else m / 2 ^ k

/-- The `float64` nearest to the exact number `(-1)^neg * m * 2^e`, ties to
even; an infinity when that number is beyond the largest finite value. -/
def roundFloat64 (neg : Bool) (m : Nat) (e : Int) : Float64 :=
  if m = 0 then .finite neg 0 (-1074)
  else
    let shift : Int := max ((bitLength m : Int) - 53) (-1074 - e)
    let m1 : Nat := if shift ≤ 0 then m * 2 ^ (-shift).toNat else shiftRound m shift.toNat
    let m2 : Nat := if m1 = 2 ^ 53 then 2 ^ 52 else m1
    let e2 : Int := if m1 = 2 ^ 53 then e + shift + 1 else e + shift
    if 971 < e2 then .inf neg else .finite neg m2 e2

/-- The zero value of a `float64` variable. -/
def Float64.zero : Float64 := .finite false 0 (-1074)

/-- Go `float64(q)` for an `int` q. -/
def Float64.ofInt (q : Int) : Float64 := roundFloat64 (decide (q < 0)) q.natAbs 0

/-- Go `x * y` on `float64`. -/
def Float64.mul : Float64 → Float64 → Float64
  | .nan, _ => .nan
  | _, .nan => .nan
  | .inf s, .inf t => .inf (xor s t)
  | .inf s, .finite t n _ => if n = 0 then .nan else .inf (xor s t)
  | .finite s m _, .inf t => if m = 0 then .nan else .inf (xor s t)
  | .finite s m e, .finite t n f => roundFloat64 (xor s t) (m * n) (e + f)

/-- The integer `(-1)^neg * m`. -/
def signed (neg : Bool) (m : Nat) : Int := if neg then -(m : Int) else (m : Int)

/-- Go `x + y` on `float64`. -/
def Float64.add : Float64 → Float64 → Float64
  | .nan, _ => .nan
  | _, .nan => .nan
  | .inf s, .inf t => if s = t then .inf s else .nan
  | .inf s, .finite _ _ _ => .inf s
  | .finite _ _ _, .inf t => .inf t
  | .finite s m e, .finite t n f =>
    let g : Int := min e f
    let c : Int := signed s (m * 2 ^ (e - g).toNat) + signed t (n * 2 ^ (f - g).toNat)
    if c = 0 then .finite (s && t) 0 (-1074)
    else roundFloat64 (decide (c < 0)) c.natAbs g

/-- The `float64` of a decimal constant of the source such as `129.99`, given
as the fraction `num / den`: the nearest value, ties to even. -/
def Float64.ofDecimal (num den : Nat) : Float64 :=
  let k : Nat := 64 + bitLength den
  roundFloat64 false (2 * (num * 2 ^ k / den) + (if num * 2 ^ k % den = 0 then 0 else 1))
    (-(k : Int) - 1)

/-- The exact number a finite `float64` stands for (0 for an infinity and for
NaN). -/
def Float64.toRat : Float64 → Rat
  | .finite neg m e => (if neg then -1 else 1) * (m : Rat) * (2 : Rat) ^ e
  | _ => 0

/-! ## Data model -/

/-- Product of `products.go`. -/
structure Product where
  ID : String
  Name : String
  Description : String
  Price : Float64
  ImageURL : String
  Stock : Int
deriving DecidableEq, Repr

/-- CartItem of `cart.go`. -/
structure CartItem where
  ProductID : String
  Quantity : Int
deriving DecidableEq, Repr

/-- Cart of `cart.go`. -/
structure Cart where
  UserID : String
  Items : List CartItem
deriving DecidableEq, Repr

/-- OrderItem of `orders.go`. -/
structure OrderItem where
  ProductID : String
  Name : String
  Price : Float64
  Quantity : Int
deriving DecidableEq, Repr

/-- Address of `orders.go`. -/
structure Address where
  Street : String
  City : String
  State : String
  ZipCode : String
  Country : String
deriving DecidableEq, Repr

/-- Order of `orders.go`; `CreatedAt` is an abstract time stamp. -/
structure Order where
  ID : String
  UserID : String
  Items : List OrderItem
  TotalAmount : Float64
  Status : String
  CreatedAt : Int
  ShippingAddr : Address
deriving DecidableEq, Repr

/-- OrderRequest of `orders.go`. -/
structure OrderRequest where
  ShippingAddr : Address
deriving DecidableEq, Repr

/-- The package-level slices `products`, `carts` and `orders`. -/
structure Store where
  products : List Product
  carts : List Cart
  orders : List Order
deriving DecidableEq, Repr

/-- What a handler writes as the response body. -/
inductive Body where
  | plain (msg : String)
  | error (msg : String)
  | order (o : Order)
deriving DecidableEq, Repr

/-- Status code and body of the HTTP response. -/
structure Response where
  status : Nat
  body : Body
deriving DecidableEq, Repr

/-! ## Go primitives -/

/-- Smallest value of a 64-bit `int`. -/
def minInt : Int := -9223372036854775808

/-- Largest value of a 64-bit `int`. -/
def maxInt : Int := 9223372036854775807

/-- Two's-complement wrap-around of an exact integer into the 64-bit range. -/
def wrapInt (x : Int) : Int :=
  (x + 9223372036854775808) % 18446744073709551616 - 9223372036854775808

/-- Go `a - b` on `int`. -/
def intSub (a b : Int) : Int := wrapInt (a - b)

/-- Go `string(n)` for an integer `n >= 0`: the text of the code point `n`,
and U+FFFD when `n` is not a valid code point. -/
def runeString (n : Nat) : String :=
  if n.isValidChar then String.singleton (Char.ofNat n)
  else String.singleton (Char.ofNat 65533)

/-! ## Lookups -/

/-- The loop `for i := range products { if products[i].ID == id { product =
&products[i]; break } }`: index and value of the first product with this id. -/
def findProduct : List Product → String → Option (Nat × Product)
  | [], _ => none
  | p :: ps, id =>
    if p.ID = id then some (0, p)
    else (findProduct ps id).map fun r => (r.1 + 1, r.2)

/-- The loop `for i := range carts { if carts[i].UserID == userID { cart =
&carts[i]; break } }`: index and value of the first cart of this user. -/
def findCart : List Cart → String → Option (Nat × Cart)
  | [], _ => none
  | c :: cs, userID =>
    if c.UserID = userID then some (0, c)
    else (findCart cs userID).map fun r => (r.1 + 1, r.2)

/-! ## createOrder -/

/-- How the loop over the cart items ends: with the early return of the stock
check, or after the last item. Both carry the product slice as the loop left
it. -/
inductive LoopOutcome where
  | insufficient (products : List Product) (name : String)
  | done (products : List Product) (orderItems : List OrderItem) (totalAmount : Float64)
deriving DecidableEq, Repr

/-- The loop `for _, item := range cart.Items` of `createOrder`, with the
product slice, `orderItems` and `totalAmount` as loop state. -/
def orderLoop : List CartItem → List Product → List OrderItem → Float64 → LoopOutcome
  | [], products, orderItems, totalAmount => .done products orderItems totalAmount
  | item :: rest, products, orderItems, totalAmount =>
    match findProduct products item.ProductID with
    | none => orderLoop rest products orderItems totalAmount
    | some (i, product) =>
      if product.Stock < item.Quantity then
        .insufficient products product.Name
      else
        orderLoop rest
          (products.set i { product with Stock := intSub product.Stock item.Quantity })
          (orderItems ++ [{ ProductID := product.ID, Name := product.Name,
                            Price := product.Price, Quantity := item.Quantity }])
          (totalAmount.add (product.Price.mul (Float64.ofInt item.Quantity)))

/-- The loop that clears the cart of the user after the order is stored. -/
def clearCart (carts : List Cart) (userID : String) : List Cart :=
  match findCart carts userID with
  | none => carts
  | some (i, c) => carts.set i { c with Items := [] }

/-- The handler `createOrder`; `body` is the decoded request body and `now`
the value of `time.Now()`. -/
def createOrder (s : Store) (body : Option OrderRequest) (userID : String) (now : Int) :
    Store × Response :=
  match body with
  | none => (s, ⟨400, .plain "Invalid request body"⟩)
  | some req =>
    match findCart s.carts userID with
    | none => (s, ⟨400, .error "Cart is empty"⟩)
    | some (_, cart) =>
      if cart.Items.length = 0 then (s, ⟨400, .error "Cart is empty"⟩)
      else
        match orderLoop cart.Items s.products [] Float64.zero with
        | .insufficient products name =>
          ({ s with products := products }, ⟨400, .error ("Not enough stock for " ++ name)⟩)
        | .done products orderItems totalAmount =>
          let newOrder : Order :=
            { ID := "o" ++ runeString (s.orders.length + 1)
              UserID := userID
              Items := orderItems
              TotalAmount := totalAmount
              Status := "pending"
              CreatedAt := now
              ShippingAddr := req.ShippingAddr }
          ({ products := products
             carts := clearCart s.carts userID
             orders := s.orders ++ [newOrder] },
           ⟨201, .order newOrder⟩)

/-! ## The seeded stores -/

/-- Initial value of `products`. -/
def seedProducts : List Product :=
  [ { ID := "p1", Name := "Mechanical Keyboard",
      Description := "Premium mechanical keyboard with RGB lighting",
      Price := Float64.ofDecimal 12999 100,
      ImageURL := "https://example.com/keyboard.jpg", Stock := 50 },
    { ID := "p2", Name := "Wireless Mouse",
      Description := "Ergonomic wireless mouse with long battery life",
      Price := Float64.ofDecimal 4999 100,
      ImageURL := "https://example.com/mouse.jpg", Stock := 100 },
    { ID := "p3", Name := "Monitor Stand",
      Description := "Adjustable monitor stand for better ergonomics",
      Price := Float64.ofDecimal 7999 100,
      ImageURL := "https://example.com/stand.jpg", Stock := 30 } ]

/-- Initial value of `carts`. -/
def seedCarts : List Cart :=
  [ { UserID := "u1", Items := [{ ProductID := "p1", Quantity := 2 }] } ]

/-- Initial value of `orders`; the time stamp of the seeded order is `created`. -/
def seedOrders (created : Int) : List Order :=
  [ { ID := "o1", UserID := "u1", TotalAmount := Float64.ofDecimal 25998 100,
      Status := "processing",
      CreatedAt := created,
      Items := [{ ProductID := "p1", Name := "Mechanical Keyboard",
                  Price := Float64.ofDecimal 12999 100, Quantity := 2 }],
      ShippingAddr := { Street := "123 Main St", City := "Anytown", State := "CA",
                        ZipCode := "12345", Country := "USA" } } ]

/-! ## Reference notions used to state the properties -/

/-- The products of the store as the loop left them. -/
def LoopOutcome.products : LoopOutcome → List Product
  | .insufficient products _ => products
  | .done products _ _ => products

/-- A product with its stock blanked: what is left are the fields other than
`Stock`. -/
def noStock (p : Product) : Product := { p with Stock := 0 }

/-- The order line of a cart item: the ID, Name and Price of the catalog
product with the item's product id and the Quantity of the item; nothing when
the id is not in the catalog. -/
def orderItemOf (products : List Product) (item : CartItem) : Option OrderItem :=
  (findProduct products item.ProductID).map fun r =>
    { ProductID := r.2.ID, Name := r.2.Name, Price := r.2.Price, Quantity := item.Quantity }

/-- The cart items in cart order, those with a product id in the catalog kept
and turned into order lines. -/
def expectedItems (products : List Product) (items : List CartItem) : List OrderItem :=
  items.filterMap (orderItemOf products)

/-- The `float64` product of the price and the quantity of a cart item whose
product id is in the catalog. -/
def lineAmount (products : List Product) (item : CartItem) : Option Float64 :=
  (findProduct products item.ProductID).map fun r =>
    r.2.Price.mul (Float64.ofInt item.Quantity)

/-- The `float64` running total: starting from 0 and going through the cart
items in cart order, the line amount of each item whose product id is in the
catalog is added, each sum rounded to `float64`. -/
def expectedTotal (products : List Product) (items : List CartItem) : Float64 :=
  (items.filterMap (lineAmount products)).foldl Float64.add Float64.zero

/-- The exact sum of price times quantity over the cart items whose product id
is in the catalog, each price taken as the exact number the `float64` price
stands for. -/
def exactTotal (products : List Product) (items : List CartItem) : Rat :=
  (items.filterMap fun item => (findProduct products item.ProductID).map fun r =>
    r.2.Price.toRat * (item.Quantity : Rat)).sum

/-- A product after the checkout of the cart items: its stock reduced, in `int`
arithmetic, by the quantity of the first cart item with its id, and the product
as it was when no cart item has its id. -/
def stockAfter (items : List CartItem) (p : Product) : Product :=
  match items.find? (fun it => decide (it.ProductID = p.ID)) with
  | some it => { p with Stock := intSub p.Stock it.Quantity }
  | none => p

/-- The order lists that arise from the seeded order list by calls of
`createOrder` that are answered 201, in whatever state the catalog and the
carts are at each call. -/
inductive ReachableOrders (created : Int) : List Order → Prop
  | seed : ReachableOrders created (seedOrders created)
  | create (s : Store) (body : Option OrderRequest) (userID : String) (now : Int) :
      ReachableOrders created s.orders →
      (createOrder s body userID now).2.status = 201 →
      ReachableOrders created (createOrder s body userID now).1.orders

/-! ## Concrete stores -/

/-- The store used to exercise the failed stock check: the seeded catalog and a
cart asking for 2 keyboards and 200 mice. -/
def shortStockStore : Store :=
  { products := seedProducts
    carts := [{ UserID := "u1", Items := [⟨"p1", 2⟩, ⟨"p2", 200⟩] }]
    orders := seedOrders 0 }

/-- The store used to exercise a sufficient cart with a stale line: the seeded
catalog and a cart asking for 2 keyboards and 1 unit of an unknown product. -/
def staleLineStore : Store :=
  { products := seedProducts
    carts := [{ UserID := "u0", Items := [] },
              { UserID := "u1", Items := [⟨"p1", 2⟩, ⟨"p9", 1⟩] }]
    orders := seedOrders 0 }

/-- Some shipping address. -/
def someRequest : OrderRequest :=
  { ShippingAddr := { Street := "1 High St", City := "Town", State := "NY",
                      ZipCode := "10001", Country := "USA" } }

/-- The seeded catalog and a cart asking for the keyboard with the quantity
`minInt`. -/
def overflowStore : Store :=
  { products := seedProducts
    carts := [{ UserID := "u1", Items := [⟨"p1", minInt⟩] }]
    orders := seedOrders 0 }

/-- A catalog of one product with the largest `int` as stock, and a cart
asking for it with the quantity -1. -/
def wrapStore : Store :=
  { products := [{ ID := "p1", Name := "Mechanical Keyboard", Description := "",
                   Price := Float64.ofDecimal 12999 100, ImageURL := "", Stock := maxInt }]
    carts := [{ UserID := "u1", Items := [⟨"p1", -1⟩] }]
    orders := seedOrders 0 }

/-- The customer puts one keyboard into the cart again. -/
def refill (s : Store) : Store :=
  { s with carts := [{ UserID := "u1", Items := [⟨"p1", 1⟩] }] }

/-- The seeded store after `n` rounds of refilling the cart and checking out. -/
def checkoutRun : Nat → Store
  | 0 => { products := seedProducts, carts := seedCarts, orders := seedOrders 0 }
  | n + 1 => (createOrder (refill (checkoutRun n)) (some someRequest) "u1" 7).1

/-! ## The cart handlers (`cart.go`) -/

/-- Go `a + b` on `int`. -/
def intAdd (a b : Int) : Int := wrapInt (a + b)

/-- CartRequest of `cart.go`. -/
structure CartRequest where
  ProductID : String
  Quantity : Int
deriving DecidableEq, Repr

/-- What a cart handler writes as the response body. -/
inductive CartBody where
  | plain (msg : String)
  | error (msg : String)
  | cart (c : Cart)
deriving DecidableEq, Repr

/-- Status code and body of the response of a cart handler. -/
structure CartResponse where
  status : Nat
  body : CartBody
deriving DecidableEq, Repr

/-- The loop `for i := range cart.Items { if cart.Items[i].ProductID == id {
...; break } }`: index and value of the first item with this product id. -/
def findItem : List CartItem → String → Option (Nat × CartItem)
  | [], _ => none
  | it :: rest, id =>
    if it.ProductID = id then some (0, it)
    else (findItem rest id).map fun r => (r.1 + 1, r.2)

/-- The handler `getCart`. -/
def getCart (s : Store) (userID : String) : Store × CartResponse :=
  match findCart s.carts userID with
  | some (_, cart) => (s, ⟨200, .cart cart⟩)
  | none =>
    let cart : Cart := { UserID := userID, Items := [] }
    ({ s with carts := s.carts ++ [cart] }, ⟨200, .cart cart⟩)

/-- The handler `addToCart`; `body` is the decoded request body. -/
def addToCart (s : Store) (body : Option CartRequest) (userID : String) :
    Store × CartResponse :=
  match body with
  | none => (s, ⟨400, .plain "Invalid request body"⟩)
  | some req =>
    if req.Quantity ≤ 0 then (s, ⟨400, .error "Quantity must be positive"⟩)
    else
      let newCart : Cart := { UserID := userID, Items := [] }
      let found : List Cart × Nat × Cart :=
        match findCart s.carts userID with
        | some (i, c) => (s.carts, i, c)
        | none => (s.carts ++ [newCart], (s.carts ++ [newCart]).length - 1, newCart)
      let carts := found.1
      let cartIndex := found.2.1
      let cart := found.2.2
      let items : List CartItem :=
        match findItem cart.Items req.ProductID with
        | some (i, it) =>
          cart.Items.set i { it with Quantity := intAdd it.Quantity req.Quantity }
        | none => cart.Items ++ [{ ProductID := req.ProductID, Quantity := req.Quantity }]
      let cart : Cart := { cart with Items := items }
      ({ s with carts := carts.set cartIndex cart }, ⟨200, .cart cart⟩)

/-- The handler `updateCart`; `body` is the decoded request body. -/
def updateCart (s : Store) (body : Option CartRequest) (userID : String) :
    Store × CartResponse :=
  match body with
  | none => (s, ⟨400, .plain "Invalid request body"⟩)
  | some req =>
    match findCart s.carts userID with
    | none => (s, ⟨404, .error "Cart not found"⟩)
    | some (cartIndex, cart) =>
      match findItem cart.Items req.ProductID with
      | none => (s, ⟨404, .error "Product not in cart"⟩)
      | some (i, it) =>
        let items : List CartItem :=
          if req.Quantity ≤ 0 then cart.Items.eraseIdx i
          else cart.Items.set i { it with Quantity := req.Quantity }
        let cart : Cart := { cart with Items := items }
        ({ s with carts := s.carts.set cartIndex cart }, ⟨200, .cart cart⟩)

/-- The handler `removeFromCart`; `productID` is the query parameter
`productId`, empty when the query has none. -/
def removeFromCart (s : Store) (productID : String) (userID : String) :
    Store × CartResponse :=
  if productID = "" then (s, ⟨400, .error "Product ID required"⟩)
  else
    match findCart s.carts userID with
    | none => (s, ⟨404, .error "Cart not found"⟩)
    | some (cartIndex, cart) =>
      match findItem cart.Items productID with
      | none => (s, ⟨404, .error "Product not in cart"⟩)
      | some (i, _) =>
        let cart : Cart := { cart with Items := cart.Items.eraseIdx i }
        ({ s with carts := s.carts.set cartIndex cart }, ⟨200, .cart cart⟩)

/-- Every item of every cart has a quantity above 0. -/
def QuantitiesPositive (s : Store) : Prop :=
  ∀ c ∈ s.carts, ∀ it ∈ c.Items, 0 < it.Quantity

/-- No cart has two items with the same product id, and no two carts have the
same user id. -/
def OneEntryPerProduct (s : Store) : Prop :=
  (∀ c ∈ s.carts, (c.Items.map fun it => it.ProductID).Nodup) ∧
  (s.carts.map fun c => c.UserID).Nodup

/-- A cart holding the keyboard with the largest `int` as quantity. -/
def fullCartStore : Store :=
  { products := seedProducts
    carts := [{ UserID := "u1", Items := [⟨"p1", maxInt⟩, ⟨"p2", 3⟩] }]
    orders := seedOrders 0 }

/-- The seeded stores. -/
def seedStore : Store :=
  { products := seedProducts, carts := seedCarts, orders := seedOrders 0 }

/-! ## The product handler (`products.go`) -/

/-- What the product handler reads of a request: the method, the parts of the
URL path as `strings.Split(path, "/")` returns them, and the decoded body
(`none` is a body that does not decode). -/
structure ProductRequest where
  Method : String
  pathParts : List String
  body : Option Product
deriving DecidableEq, Repr

/-- What the product handler writes as the response body. -/
inductive ProductBody where
  | empty
  | plain (msg : String)
  | error (msg : String)
  | message (msg : String)
  | product (p : Product)
  | products (ps : List Product)
deriving DecidableEq, Repr

/-- Status code and body of the response of the product handler. -/
structure ProductResponse where
  status : Nat
  body : ProductBody
deriving DecidableEq, Repr

/-- The function `handleSingleProduct` of `products.go`. -/
def handleSingleProduct (s : Store) (r : ProductRequest) (id : String) :
    Store × ProductResponse :=
  match findProduct s.products id with
  | none => (s, ⟨404, .error "Product not found"⟩)
  | some (_, product) =>
    if r.Method = "GET" then (s, ⟨200, .product product⟩)
    else if r.Method = "PUT" then
      match r.body with
      | none => (s, ⟨400, .plain "Invalid request body"⟩)
      | some decoded =>
        let updatedProduct : Product := { decoded with ID := product.ID }
        let products :=
          match findProduct s.products id with
          | some (i, _) => s.products.set i updatedProduct
          | none => s.products
        ({ s with products := products }, ⟨200, .product updatedProduct⟩)
    else if r.Method = "DELETE" then
      ({ s with products := s.products.filter fun p => decide (p.ID ≠ id) },
       ⟨200, .message "Product deleted"⟩)
    else (s, ⟨405, .empty⟩)

/-- The function `Handler` of `products.go`. -/
def Handler (s : Store) (r : ProductRequest) : Store × ProductResponse :=
  if r.Method = "OPTIONS" then (s, ⟨200, .empty⟩)
  else if 2 < r.pathParts.length ∧ r.pathParts.getD 2 "" ≠ "" then
    handleSingleProduct s r (r.pathParts.getD 2 "")
  else if r.Method = "GET" then (s, ⟨200, .products s.products⟩)
  else if r.Method = "POST" then
    match r.body with
    | none => (s, ⟨400, .plain "Invalid request body"⟩)
    | some decoded =>
      let newProduct : Product :=
        { decoded with ID := "p" ++ runeString (s.products.length + 1) }
      ({ s with products := s.products ++ [newProduct] }, ⟨201, .product newProduct⟩)
  else (s, ⟨405, .empty⟩)

/-- The catalogs that arise from the seeded catalog by POST, PUT and DELETE
requests to the product handler. -/
inductive ReachableProducts : List Product → Prop
  | seed : ReachableProducts seedProducts
  | request (s : Store) (r : ProductRequest) :
      ReachableProducts s.products →
      r.Method = "POST" ∨ r.Method = "PUT" ∨ r.Method = "DELETE" →
      ReachableProducts (Handler s r).1.products

/-- A product as a client sends it for creation. -/
def webcam : Product :=
  { ID := "", Name := "Webcam", Description := "HD webcam",
    Price := Float64.ofDecimal 5999 100,
    ImageURL := "https://example.com/webcam.jpg", Stock := 10 }

/-- The request `POST /products` with the webcam as body. -/
def postWebcam : ProductRequest :=
  { Method := "POST", pathParts := ["", "products"], body := some webcam }

/-- The request `DELETE /products/p1`. -/
def deleteKeyboard : ProductRequest :=
  { Method := "DELETE", pathParts := ["", "products", "p1"], body := none }

/-- The store after the requests of the list, in order. -/
def serve (s : Store) (rs : List ProductRequest) : Store :=
  rs.foldl (fun t r => (Handler t r).1) s

/-- The seeded catalog and a cart asking for 3 monitor stands (price 79.99,
stock 30). -/
def standStore : Store :=
  { products := seedProducts
    carts := [{ UserID := "u1", Items := [⟨"p3", 3⟩] }]
    orders := seedOrders 0 }

/-- The seeded catalog and a cart asking for 1 keyboard and 1 mouse (prices
129.99 and 49.99). -/
def pairStore : Store :=
  { products := seedProducts
    carts := [{ UserID := "u1", Items := [⟨"p1", 1⟩, ⟨"p2", 1⟩] }]
    orders := seedOrders 0 }

/-- The stores that arise from the seeded stores by calls of the handlers of
`cart.go`, `orders.go` and `products.go`. -/
inductive ReachableStore : Store → Prop
  | seed (created : Int) : ReachableStore ⟨seedProducts, seedCarts, seedOrders created⟩
  | afterGetCart (s : Store) (userID : String) :
      ReachableStore s → ReachableStore (getCart s userID).1
  | afterAddToCart (s : Store) (body : Option CartRequest) (userID : String) :
      ReachableStore s → ReachableStore (addToCart s body userID).1
  | afterUpdateCart (s : Store) (body : Option CartRequest) (userID : String) :
      ReachableStore s → ReachableStore (updateCart s body userID).1
  | afterRemoveFromCart (s : Store) (productID userID : String) :
      ReachableStore s → ReachableStore (removeFromCart s productID userID).1
  | afterCreateOrder (s : Store) (body : Option OrderRequest) (userID : String) (now : Int) :
      ReachableStore s → ReachableStore (createOrder s body userID now).1
  | afterProductRequest (s : Store) (r : ProductRequest) :
      ReachableStore s → ReachableStore (Handler s r).1

/-- The seeded stores after `POST /cart/u1` with one unit of the unknown
product p9. -/
def staleCartStore : Store := (addToCart seedStore (some ⟨"p9", 1⟩) "u1").1

set_option maxRecDepth 100000

set_option exponentiation.threshold 4096

/-! ## Basic facts about the lookups -/

theorem findProduct_some {ps : List Product} {id : String} {i : Nat} {p : Product}
    (h : findProduct ps id = some (i, p)) : ps[i]? = some p ∧ p.ID = id := by
  induction ps generalizing i with
  | nil => simp [findProduct] at h
  | cons q qs ih =>
    unfold findProduct at h
    split at h
    · rename_i hq
      simp only [Option.some.injEq, Prod.mk.injEq] at h
      obtain ⟨rfl, rfl⟩ := h
      exact ⟨by simp, hq⟩
    · cases hf : findProduct qs id with
      | none => simp [hf] at h
      | some r =>
        obtain ⟨j, q'⟩ := r
        simp only [hf, Option.map_some', Option.some.injEq, Prod.mk.injEq] at h
        obtain ⟨rfl, rfl⟩ := h
        have := ih hf
        exact ⟨by simpa using this.1, this.2⟩

theorem findProduct_none {ps : List Product} {id : String} :
    findProduct ps id = none ↔ ∀ p ∈ ps, p.ID ≠ id := by
  induction ps with
  | nil => simp [findProduct]
  | cons q qs ih =>
    unfold findProduct
    by_cases hq : q.ID = id
    · simp [hq]
    · simp [hq, ih]

theorem findCart_some {cs : List Cart} {u : String} {i : Nat} {c : Cart}
    (h : findCart cs u = some (i, c)) : cs[i]? = some c ∧ c.UserID = u := by
  induction cs generalizing i with
  | nil => simp [findCart] at h
  | cons d ds ih =>
    unfold findCart at h
    split at h
    · rename_i hd
      simp only [Option.some.injEq, Prod.mk.injEq] at h
      obtain ⟨rfl, rfl⟩ := h
      exact ⟨by simp, hd⟩
    · cases hf : findCart ds u with
      | none => simp [hf] at h
      | some r =>
        obtain ⟨j, d'⟩ := r
        simp only [hf, Option.map_some', Option.some.injEq, Prod.mk.injEq] at h
        obtain ⟨rfl, rfl⟩ := h
        have := ih hf
        exact ⟨by simpa using this.1, this.2⟩

/-- Writing through the pointer returned by `findCart` keeps the cart at the
same place in the slice. -/
theorem findCart_set {cs : List Cart} {u : String} {i : Nat} {c : Cart} (c' : Cart)
    (h : findCart cs u = some (i, c)) (hu : c'.UserID = u) :
    findCart (cs.set i c') u = some (i, c') := by
  induction cs generalizing i with
  | nil => simp [findCart] at h
  | cons d ds ih =>
    unfold findCart at h
    split at h
    · simp only [Option.some.injEq, Prod.mk.injEq] at h
      obtain ⟨rfl, rfl⟩ := h
      simp [findCart, hu]
    · rename_i hd
      cases hf : findCart ds u with
      | none => simp [hf] at h
      | some r =>
        obtain ⟨j, d'⟩ := r
        simp only [hf, Option.map_some', Option.some.injEq, Prod.mk.injEq] at h
        obtain ⟨rfl, rfl⟩ := h
        simp [findCart, hd, ih hf]

/-! ## The product slice during the loop -/

/-- A stock update through the pointer returned by `findProduct` changes no
field other than `Stock`, at no position. -/
theorem set_stock_noStock {ps : List Product} {id : String} {i : Nat} {p : Product} (x : Int)
    (h : findProduct ps id = some (i, p)) :
    (ps.set i { p with Stock := x }).map noStock = ps.map noStock := by
  induction ps generalizing i with
  | nil => simp [findProduct] at h
  | cons q qs ih =>
    unfold findProduct at h
    split at h
    · simp only [Option.some.injEq, Prod.mk.injEq] at h
      obtain ⟨rfl, rfl⟩ := h
      simp [noStock]
    · cases hf : findProduct qs id with
      | none => simp [hf] at h
      | some r =>
        obtain ⟨j, q'⟩ := r
        simp only [hf, Option.map_some', Option.some.injEq, Prod.mk.injEq] at h
        obtain ⟨rfl, rfl⟩ := h
        simp [ih hf]

/-- The lookup depends on the stocks only through the stock it returns. -/
theorem findProduct_noStock {ps qs : List Product} (id : String)
    (h : ps.map noStock = qs.map noStock) :
    (findProduct ps id).map (fun r => (r.1, noStock r.2)) =
      (findProduct qs id).map (fun r => (r.1, noStock r.2)) := by
  induction ps generalizing qs with
  | nil =>
    cases qs with
    | nil => rfl
    | cons q qs => simp at h
  | cons p ps ih =>
    cases qs with
    | nil => simp at h
    | cons q qs =>
      simp only [List.map_cons, List.cons.injEq] at h
      obtain ⟨hpq, hrest⟩ := h
      have hid : p.ID = q.ID := by
        have := congrArg Product.ID hpq
        simpa [noStock] using this
      have := ih hrest
      unfold findProduct
      by_cases hp : p.ID = id
      · have hq : q.ID = id := hid ▸ hp
        simp [hp, hq, hpq]
      · have hq : ¬ q.ID = id := fun e => hp (hid.trans e)
        simp only [hp, hq, if_false, Option.map_map]
        cases h1 : findProduct ps id <;> cases h2 : findProduct qs id <;>
          simp [h1, h2] at this ⊢
        exact this

theorem orderItemOf_noStock {ps qs : List Product} (item : CartItem)
    (h : ps.map noStock = qs.map noStock) : orderItemOf ps item = orderItemOf qs item := by
  have key := findProduct_noStock item.ProductID h
  unfold orderItemOf
  cases h1 : findProduct ps item.ProductID <;> cases h2 : findProduct qs item.ProductID <;>
    simp [h1, h2] at key ⊢
  obtain ⟨_, hk⟩ := key
  have e1 := congrArg Product.ID hk
  have e2 := congrArg Product.Name hk
  have e3 := congrArg Product.Price hk
  simp only [noStock] at e1 e2 e3
  exact ⟨e1, e2, e3⟩

theorem lineAmount_noStock {ps qs : List Product} (item : CartItem)
    (h : ps.map noStock = qs.map noStock) : lineAmount ps item = lineAmount qs item := by
  have key := findProduct_noStock item.ProductID h
  unfold lineAmount
  cases h1 : findProduct ps item.ProductID <;> cases h2 : findProduct qs item.ProductID <;>
    simp [h1, h2] at key ⊢
  obtain ⟨_, hk⟩ := key
  have e3 := congrArg Product.Price hk
  simp only [noStock] at e3
  rw [e3]

theorem expectedItems_noStock {ps qs : List Product} (items : List CartItem)
    (h : ps.map noStock = qs.map noStock) : expectedItems ps items = expectedItems qs items := by
  unfold expectedItems
  congr 1
  funext it
  exact orderItemOf_noStock it h

theorem lineAmounts_noStock {ps qs : List Product} (items : List CartItem)
    (h : ps.map noStock = qs.map noStock) :
    items.filterMap (lineAmount ps) = items.filterMap (lineAmount qs) := by
  congr 1
  funext it
  exact lineAmount_noStock it h

theorem expectedTotal_noStock {ps qs : List Product} (items : List CartItem)
    (h : ps.map noStock = qs.map noStock) : expectedTotal ps items = expectedTotal qs items := by
  unfold expectedTotal
  rw [lineAmounts_noStock items h]

/-- Whatever way the loop ends, the product slice it leaves differs from the
one it started with in stocks only. -/
theorem orderLoop_products_noStock (items : List CartItem) (ps : List Product)
    (ois : List OrderItem) (tot : Float64) :
    (orderLoop items ps ois tot).products.map noStock = ps.map noStock := by
  induction items generalizing ps ois tot with
  | nil => rfl
  | cons it rest ih =>
    unfold orderLoop
    cases hf : findProduct ps it.ProductID with
    | none => simpa using ih ps ois tot
    | some r =>
      obtain ⟨i, p⟩ := r
      dsimp only
      split
      · rfl
      · rw [ih, set_stock_noStock _ hf]

/-- When the loop runs to its end, the order lines it has accumulated are
those of the cart items, looked up in the catalog the loop started with, and
the total is the total it started with plus, one after the other, the line
amounts of those items. -/
theorem orderLoop_done {items : List CartItem} {ps ps' : List Product}
    {ois ois' : List OrderItem} {tot tot' : Float64}
    (h : orderLoop items ps ois tot = .done ps' ois' tot') :
    ois' = ois ++ expectedItems ps items ∧
    tot' = (items.filterMap (lineAmount ps)).foldl Float64.add tot := by
  induction items generalizing ps ois tot with
  | nil =>
    simp only [orderLoop, LoopOutcome.done.injEq] at h
    obtain ⟨_, rfl, rfl⟩ := h
    simp [expectedItems]
  | cons it rest ih =>
    unfold orderLoop at h
    cases hf : findProduct ps it.ProductID with
    | none =>
      simp only [hf] at h
      have := ih h
      simpa [expectedItems, orderItemOf, lineAmount, hf] using this
    | some r =>
      obtain ⟨i, p⟩ := r
      simp only [hf] at h
      split at h
      · simp at h
      · obtain ⟨h1, h2⟩ := ih h
        have hns := set_stock_noStock (intSub p.Stock it.Quantity) hf
        rw [expectedItems_noStock rest hns] at h1
        rw [lineAmounts_noStock rest hns] at h2
        constructor
        · rw [h1]
          simp [expectedItems, orderItemOf, hf]
        · rw [h2]
          simp [lineAmount, hf]

/-- A stock update for one product id leaves the lookup of every other id as
it was. -/
theorem findProduct_set_other {ps : List Product} {id id' : String} {i : Nat} {p : Product}
    (x : Int) (h : findProduct ps id = some (i, p)) (hne : id' ≠ id) :
    findProduct (ps.set i { p with Stock := x }) id' = findProduct ps id' := by
  induction ps generalizing i with
  | nil => simp [findProduct] at h
  | cons q qs ih =>
    unfold findProduct at h
    split at h
    · rename_i hq
      simp only [Option.some.injEq, Prod.mk.injEq] at h
      obtain ⟨rfl, rfl⟩ := h
      have h1 : ¬ q.ID = id' := fun e => hne (e.symm.trans hq)
      simp [findProduct, h1]
    · cases hf : findProduct qs id with
      | none => simp [hf] at h
      | some r =>
        obtain ⟨j, q'⟩ := r
        simp only [hf, Option.map_some', Option.some.injEq, Prod.mk.injEq] at h
        obtain ⟨rfl, rfl⟩ := h
        simp [findProduct, ih hf]

/-- Every list with an element satisfying `P` splits at the first such
element. -/
theorem exists_first {α : Type} (P : α → Prop) (l : List α) (h : ∃ x ∈ l, P x) :
    ∃ pre x post, l = pre ++ x :: post ∧ P x ∧ ∀ y ∈ pre, ¬ P y := by
  induction l with
  | nil => simp at h
  | cons a l ih =>
    by_cases ha : P a
    · exact ⟨[], a, l, rfl, ha, by simp⟩
    · have : ∃ x ∈ l, P x := by
        obtain ⟨x, hx, hP⟩ := h
        rcases List.mem_cons.1 hx with rfl | hx
        · exact absurd hP ha
        · exact ⟨x, hx, hP⟩
      obtain ⟨pre, x, post, rfl, hx, hpre⟩ := ih this
      refine ⟨a :: pre, x, post, rfl, hx, ?_⟩
      intro y hy
      rcases List.mem_cons.1 hy with rfl | hy
      · exact ha
      · exact hpre y hy

/-- With at most one cart entry per product id and enough stock for every
entry whose product is in the catalog, the loop runs to its end. -/
theorem orderLoop_sufficient (items : List CartItem) (ps : List Product)
    (ois : List OrderItem) (tot : Float64)
    (hnodup : (items.map (fun it => it.ProductID)).Nodup)
    (hstock : ∀ it ∈ items, ∀ i p, findProduct ps it.ProductID = some (i, p) →
      it.Quantity ≤ p.Stock) :
    ∃ ps' ois' tot', orderLoop items ps ois tot = .done ps' ois' tot' := by
  induction items generalizing ps ois tot with
  | nil => exact ⟨ps, ois, tot, rfl⟩
  | cons it rest ih =>
    simp only [List.map_cons, List.nodup_cons, List.mem_map, not_exists, not_and] at hnodup
    obtain ⟨hnot, hnd⟩ := hnodup
    unfold orderLoop
    cases hf : findProduct ps it.ProductID with
    | none =>
      exact ih ps ois tot hnd fun jt hjt => hstock jt (List.mem_cons_of_mem _ hjt)
    | some r =>
      obtain ⟨i, p⟩ := r
      have hle := hstock it (List.mem_cons_self _ _) i p hf
      simp only [not_lt.2 hle, if_false]
      apply ih _ _ _ hnd
      intro jt hjt j q hq
      have hne : jt.ProductID ≠ it.ProductID := hnot jt hjt
      rw [findProduct_set_other _ hf hne] at hq
      exact hstock jt (List.mem_cons_of_mem _ hjt) j q hq

/-- With at most one cart entry per product id, the loop returns early at the
first entry whose product is in the catalog with less stock than asked for,
naming that product. -/
theorem orderLoop_short (pre : List CartItem) (bad : CartItem) (post : List CartItem)
    (ps : List Product) (ois : List OrderItem) (tot : Float64) (i : Nat) (p : Product)
    (hnodup : ((pre ++ bad :: post).map (fun it => it.ProductID)).Nodup)
    (hpre : ∀ it ∈ pre, ∀ j q, findProduct ps it.ProductID = some (j, q) →
      ¬ q.Stock < it.Quantity)
    (hbad : findProduct ps bad.ProductID = some (i, p)) (hlt : p.Stock < bad.Quantity) :
    ∃ ps', orderLoop (pre ++ bad :: post) ps ois tot = .insufficient ps' p.Name := by
  induction pre generalizing ps ois tot with
  | nil =>
    refine ⟨ps, ?_⟩
    simp [orderLoop, hbad, hlt]
  | cons it rest ih =>
    simp only [List.cons_append, List.map_cons, List.nodup_cons, List.mem_map, not_exists,
      not_and] at hnodup
    obtain ⟨hnot, hnd⟩ := hnodup
    simp only [List.cons_append]
    unfold orderLoop
    cases hf : findProduct ps it.ProductID with
    | none =>
      exact ih ps ois tot hnd (fun jt hjt => hpre jt (List.mem_cons_of_mem _ hjt)) hbad
    | some r =>
      obtain ⟨j, q⟩ := r
      have hge := hpre it (List.mem_cons_self _ _) j q hf
      simp only [hge, if_false]
      apply ih _ _ _ hnd
      · intro jt hjt k q' hq'
        have hne : jt.ProductID ≠ it.ProductID := hnot jt (by simp [hjt])
        rw [findProduct_set_other _ hf hne] at hq'
        exact hpre jt (List.mem_cons_of_mem _ hjt) k q' hq'
      · have hne : bad.ProductID ≠ it.ProductID := hnot bad (by simp)
        rw [findProduct_set_other _ hf hne]
        exact hbad

/-- A call answered with the status 201 has the created order as body. -/
theorem createOrder_status_created {s : Store} {body : Option OrderRequest} {userID : String}
    {now : Int} (h : (createOrder s body userID now).2.status = 201) :
    ∃ o, (createOrder s body userID now).2 = ⟨201, .order o⟩ := by
  cases body with
  | none => simp [createOrder] at h
  | some req =>
    cases hc : findCart s.carts userID with
    | none => simp [createOrder, hc] at h
    | some r =>
      obtain ⟨i, cart⟩ := r
      by_cases hlen : cart.Items.length = 0
      · simp [createOrder, hc, hlen] at h
      · cases hl : orderLoop cart.Items s.products [] Float64.zero with
        | insufficient ps nm => simp [createOrder, hc, hlen, hl] at h
        | done ps ois tot =>
          simp only [createOrder, hc, hlen, hl, if_false]
          exact ⟨_, rfl⟩

/-- What a call answered with 201 has done. -/
theorem createOrder_created {s : Store} {body : Option OrderRequest} {userID : String}
    {now : Int} {o : Order} (h : (createOrder s body userID now).2 = ⟨201, .order o⟩) :
    ∃ req i cart ps ois tot, body = some req ∧ findCart s.carts userID = some (i, cart) ∧
      cart.Items ≠ [] ∧ orderLoop cart.Items s.products [] Float64.zero = .done ps ois tot ∧
      o = { ID := "o" ++ runeString (s.orders.length + 1), UserID := userID, Items := ois,
            TotalAmount := tot, Status := "pending", CreatedAt := now,
            ShippingAddr := req.ShippingAddr } ∧
      (createOrder s body userID now).1 =
        { products := ps, carts := clearCart s.carts userID, orders := s.orders ++ [o] } := by
  cases body with
  | none => simp [createOrder] at h
  | some req =>
    cases hc : findCart s.carts userID with
    | none => simp [createOrder, hc] at h
    | some r =>
      obtain ⟨i, cart⟩ := r
      by_cases hlen : cart.Items.length = 0
      · simp [createOrder, hc, hlen] at h
      · cases hl : orderLoop cart.Items s.products [] Float64.zero with
        | insufficient ps nm => simp [createOrder, hc, hlen, hl] at h
        | done ps ois tot =>
          simp only [createOrder, hc, hlen, hl, if_false, Response.mk.injEq, Body.order.injEq,
            true_and] at h
          refine ⟨req, i, cart, ps, ois, tot, rfl, rfl, ?_, hl, h.symm, ?_⟩
          · intro e; exact hlen (by simp [e])
          · simp only [createOrder, hc, hlen, hl, if_false]
            rw [h]

/-- What a call does when the loop runs to its end. -/
theorem createOrder_of_done {s : Store} {req : OrderRequest} {userID : String} {now : Int}
    {i : Nat} {cart : Cart} {ps : List Product} {ois : List OrderItem} {tot : Float64}
    (hc : findCart s.carts userID = some (i, cart)) (hne : cart.Items ≠ [])
    (hl : orderLoop cart.Items s.products [] Float64.zero = .done ps ois tot) :
    createOrder s (some req) userID now =
      (⟨ps, clearCart s.carts userID,
        s.orders ++ [Order.mk ("o" ++ runeString (s.orders.length + 1)) userID ois tot
          "pending" now req.ShippingAddr]⟩,
       ⟨201, .order (Order.mk ("o" ++ runeString (s.orders.length + 1)) userID ois tot
          "pending" now req.ShippingAddr)⟩) := by
  have hlen : ¬ cart.Items.length = 0 := by
    intro e; exact hne (List.length_eq_zero.1 e)
  simp only [createOrder, hc, hlen, hl, if_false]

/-! ## Empty cart -/

/-- C4: when the user has no cart, or a cart with zero items, `createOrder`
answers 400 with the error "Cart is empty" and the store after the call (the
product list, the cart list and the order list) is the store before the call. -/
theorem createOrder_empty_cart (s : Store) (req : OrderRequest) (userID : String) (now : Int)
    (h : findCart s.carts userID = none ∨
      ∃ i c, findCart s.carts userID = some (i, c) ∧ c.Items.length = 0) :
    createOrder s (some req) userID now = (s, ⟨400, .error "Cart is empty"⟩) ∧
    (createOrder s (some req) userID now).1.products = s.products ∧
    (createOrder s (some req) userID now).1.carts = s.carts ∧
    (createOrder s (some req) userID now).1.orders = s.orders := by
  have key : createOrder s (some req) userID now = (s, ⟨400, .error "Cart is empty"⟩) := by
    rcases h with h | ⟨i, c, h, hc⟩
    · simp [createOrder, h]
    · simp [createOrder, h, hc]
  rw [key]
  exact ⟨rfl, rfl, rfl, rfl⟩

theorem createOrder_empty_cart_witness :
    createOrder ⟨seedProducts, [⟨"u1", []⟩], seedOrders 0⟩ (some ⟨⟨"s", "c", "st", "z", "co"⟩⟩) "u1" 7
        = (⟨seedProducts, [⟨"u1", []⟩], seedOrders 0⟩, ⟨400, .error "Cart is empty"⟩) ∧
    (createOrder ⟨seedProducts, [⟨"u1", []⟩], seedOrders 0⟩
      (some ⟨⟨"s", "c", "st", "z", "co"⟩⟩) "u1" 7).1.products = seedProducts :=
  have h := createOrder_empty_cart ⟨seedProducts, [⟨"u1", []⟩], seedOrders 0⟩
    ⟨⟨"s", "c", "st", "z", "co"⟩⟩ "u1" 7 (Or.inr ⟨0, ⟨"u1", []⟩, by decide, by decide⟩)
  ⟨h.1, h.2.1⟩

/-! ## Frame of the failed stock check -/

/-- C8: whenever `createOrder` answers with the error "Not enough stock for
<name>", the order list and the cart list after the call are those before the
call (no order is appended, no cart is touched). -/
theorem createOrder_not_enough_stock_frame (s : Store) (body : Option OrderRequest)
    (userID : String) (now : Int) (name : String)
    (h : (createOrder s body userID now).2 = ⟨400, .error ("Not enough stock for " ++ name)⟩) :
    (createOrder s body userID now).1.orders = s.orders ∧
    (createOrder s body userID now).1.carts = s.carts := by
  cases body with
  | none => simp [createOrder]
  | some req =>
    cases hc : findCart s.carts userID with
    | none => simp [createOrder, hc]
    | some r =>
      obtain ⟨i, cart⟩ := r
      by_cases hlen : cart.Items.length = 0
      · simp [createOrder, hc, hlen]
      · cases hl : orderLoop cart.Items s.products [] Float64.zero with
        | insufficient ps nm => simp [createOrder, hc, hlen, hl]
        | done ps ois tot => simp [createOrder, hc, hlen, hl] at h

theorem createOrder_not_enough_stock_frame_witness :
    (createOrder shortStockStore (some ⟨⟨"s", "c", "st", "z", "co"⟩⟩) "u1" 7).1.orders
        = shortStockStore.orders ∧
    (createOrder shortStockStore (some ⟨⟨"s", "c", "st", "z", "co"⟩⟩) "u1" 7).1.carts
        = shortStockStore.carts :=
  createOrder_not_enough_stock_frame shortStockStore (some ⟨⟨"s", "c", "st", "z", "co"⟩⟩) "u1" 7
    "Wireless Mouse" (by decide)

/-- C1 (the code at the failing input): the seeded catalog and a cart asking
for 2 keyboards (stock 50) and then 200 mice (stock 100). The call ends with
"Not enough stock for Wireless Mouse", and the stock of the keyboard, which
precedes the failing item in the cart, is 48 after the call instead of 50. -/
theorem createOrder_failed_call_changes_stock :
    (createOrder shortStockStore (some ⟨⟨"s", "c", "st", "z", "co"⟩⟩) "u1" 7).2
        = ⟨400, .error "Not enough stock for Wireless Mouse"⟩ ∧
    shortStockStore.products.map (fun p => (p.ID, p.Stock))
        = [("p1", 50), ("p2", 100), ("p3", 30)] ∧
    (createOrder shortStockStore (some ⟨⟨"s", "c", "st", "z", "co"⟩⟩) "u1" 7).1.products.map
        (fun p => (p.ID, p.Stock)) = [("p1", 48), ("p2", 100), ("p3", 30)] := by
  refine ⟨by decide, by decide, by decide⟩

/-! ## Checkout with one cart entry per product -/

theorem findCart_clearCart {cs : List Cart} {u : String} {i : Nat} {c : Cart}
    (h : findCart cs u = some (i, c)) :
    findCart (clearCart cs u) u = some (i, { c with Items := [] }) := by
  unfold clearCart
  rw [h]
  exact findCart_set _ h (findCart_some h).2

/-- C2: when the cart of the user has at most one entry per product id and
some entry whose product is in the catalog with less stock than the quantity
asked for, `createOrder` (given a request body that decodes) answers 400 with
the error "Not enough stock for <name>", where <name> is the Name of the
catalog product of the first such entry in cart order: the cart splits as
`pre ++ bad :: post` with no such entry in `pre`. -/
theorem createOrder_not_enough_stock (s : Store) (req : OrderRequest) (userID : String)
    (now : Int) (ci : Nat) (cart : Cart)
    (hcart : findCart s.carts userID = some (ci, cart))
    (hnodup : (cart.Items.map (fun it => it.ProductID)).Nodup)
    (hshort : ∃ it ∈ cart.Items, ∃ i p,
      findProduct s.products it.ProductID = some (i, p) ∧ p.Stock < it.Quantity) :
    ∃ pre bad post i p, cart.Items = pre ++ bad :: post ∧
      (∀ it ∈ pre, ∀ j q, findProduct s.products it.ProductID = some (j, q) →
        ¬ q.Stock < it.Quantity) ∧
      findProduct s.products bad.ProductID = some (i, p) ∧ p.Stock < bad.Quantity ∧
      (createOrder s (some req) userID now).2 =
        ⟨400, .error ("Not enough stock for " ++ p.Name)⟩ := by
  obtain ⟨pre, bad, post, hsplit, ⟨i, p, hbad, hlt⟩, hpre⟩ :=
    exists_first (fun it : CartItem => ∃ i p,
      findProduct s.products it.ProductID = some (i, p) ∧ p.Stock < it.Quantity)
      cart.Items hshort
  have hpre' : ∀ it ∈ pre, ∀ j q, findProduct s.products it.ProductID = some (j, q) →
      ¬ q.Stock < it.Quantity := fun it hit j q hq hlt' => hpre it hit ⟨j, q, hq, hlt'⟩
  refine ⟨pre, bad, post, i, p, hsplit, hpre', hbad, hlt, ?_⟩
  rw [hsplit] at hnodup
  obtain ⟨ps', hloop⟩ := orderLoop_short pre bad post s.products [] Float64.zero i p hnodup hpre' hbad hlt
  have hlen : ¬ cart.Items.length = 0 := by simp [hsplit]
  rw [← hsplit] at hloop
  simp only [createOrder, hcart, hlen, hloop, if_false]

theorem createOrder_not_enough_stock_witness :
    ∃ pre bad post i p,
      ([⟨"p1", 2⟩, ⟨"p2", 200⟩] : List CartItem) = pre ++ bad :: post ∧
      (∀ it ∈ pre, ∀ j q, findProduct shortStockStore.products it.ProductID = some (j, q) →
        ¬ q.Stock < it.Quantity) ∧
      findProduct shortStockStore.products bad.ProductID = some (i, p) ∧
      p.Stock < bad.Quantity ∧
      (createOrder shortStockStore (some someRequest) "u1" 7).2 =
        ⟨400, .error ("Not enough stock for " ++ p.Name)⟩ :=
  createOrder_not_enough_stock shortStockStore someRequest "u1" 7 0
    ⟨"u1", [⟨"p1", 2⟩, ⟨"p2", 200⟩]⟩ (by decide) (by decide)
    ⟨⟨"p2", 200⟩, by decide, 1, seedProducts.get ⟨1, by decide⟩, rfl, by decide⟩

/-- The prices of the seeded catalog as `float64` values. -/
theorem seed_prices :
    Float64.ofDecimal 12999 100 = .finite false 4573616527827272 (-45) ∧
    Float64.ofDecimal 4999 100 = .finite false 7035467042882847 (-47) ∧
    Float64.ofDecimal 7999 100 = .finite false 5628795846771343 (-46) := by
  refine ⟨by decide, by decide, by decide⟩

/-- C3 (as stated, refuted): the cart of u1 asks for 3 monitor stands (price
79.99, stock 30). The call is answered 201 and the TotalAmount of the created
order is the `float64` 8443193770157014 * 2^-45, which is the value the
decimal 239.96999999999997 denotes. It is neither the exact product of 3 and
the `float64` price nor the `float64` of 239.97. For 1 keyboard and 1 mouse the
TotalAmount is the value of 179.98000000000002, not that of 179.98. -/
theorem createOrder_total_rounded :
    (∃ i cart, findCart standStore.carts "u1" = some (i, cart) ∧ cart.Items ≠ [] ∧
      (cart.Items.map (fun it => it.ProductID)).Nodup ∧
      ∀ it ∈ cart.Items, ∀ j p,
        findProduct standStore.products it.ProductID = some (j, p) → it.Quantity ≤ p.Stock) ∧
    (∃ o, (createOrder standStore (some someRequest) "u1" 7).2 = ⟨201, .order o⟩ ∧
      o.TotalAmount = .finite false 8443193770157014 (-45) ∧
      o.TotalAmount = Float64.ofDecimal 23996999999999997 100000000000000 ∧
      o.TotalAmount ≠ Float64.ofDecimal 23997 100 ∧
      o.TotalAmount.toRat ≠ exactTotal standStore.products [⟨"p3", 3⟩]) ∧
    (∃ o, (createOrder pairStore (some someRequest) "u1" 7).2 = ⟨201, .order o⟩ ∧
      o.TotalAmount = Float64.ofDecimal 17998000000000002 100000000000000 ∧
      o.TotalAmount ≠ Float64.ofDecimal 17998 100) := by
  have ht : (createOrder standStore (some someRequest) "u1" 7).2
      = ⟨201, .order (Order.mk "o\x02" "u1"
          [⟨"p3", "Monitor Stand", .finite false 5628795846771343 (-46), 3⟩]
          (.finite false 8443193770157014 (-45)) "pending" 7 someRequest.ShippingAddr)⟩ := by
    decide
  refine ⟨⟨0, ⟨"u1", [⟨"p3", 3⟩]⟩, rfl, by decide, by decide, ?_⟩,
    ⟨_, ht, rfl, by decide, by decide, ?_⟩, ⟨_, rfl, by decide, by decide⟩⟩
  · intro it hit j p hf
    simp only [List.mem_singleton] at hit
    subst hit
    have h3 : findProduct standStore.products "p3"
        = some (2, seedProducts.get ⟨2, by decide⟩) := by decide
    rw [h3] at hf
    cases hf
    decide
  · have h3 : findProduct standStore.products "p3"
        = some (2, ⟨"p3", "Monitor Stand", "Adjustable monitor stand for better ergonomics",
            .finite false 5628795846771343 (-46), "https://example.com/stand.jpg", 30⟩) := by
      decide
    simp only [exactTotal, List.filterMap_cons, List.filterMap_nil, h3, Option.map_some',
      List.sum_cons, List.sum_nil, Float64.toRat]
    norm_num

/-- C3 (amended): when the cart of the user is non-empty, has at most one entry
per product id, and every entry whose product is in the catalog asks for no
more than the stock of that product, `createOrder` (given a request body that
decodes) answers 201 with the created order, and the cart of the user has zero
items after the call. The TotalAmount of the order is the `float64` running
total: from 0, in cart order, the `float64` product of price and quantity of
each entry whose product id is in the catalog is added, each product and each
sum rounded to `float64`. -/
theorem createOrder_succeeds (s : Store) (req : OrderRequest) (userID : String)
    (now : Int) (ci : Nat) (cart : Cart)
    (hcart : findCart s.carts userID = some (ci, cart))
    (hne : cart.Items ≠ [])
    (hnodup : (cart.Items.map (fun it => it.ProductID)).Nodup)
    (hstock : ∀ it ∈ cart.Items, ∀ i p,
      findProduct s.products it.ProductID = some (i, p) → it.Quantity ≤ p.Stock) :
    ∃ o, (createOrder s (some req) userID now).2 = ⟨201, .order o⟩ ∧
      o.TotalAmount = expectedTotal s.products cart.Items ∧
      ∃ c, findCart (createOrder s (some req) userID now).1.carts userID = some (ci, c) ∧
        c.Items.length = 0 := by
  obtain ⟨ps, ois, tot, hloop⟩ := orderLoop_sufficient cart.Items s.products [] Float64.zero hnodup hstock
  obtain ⟨-, htot⟩ := orderLoop_done hloop
  rw [createOrder_of_done hcart hne hloop]
  refine ⟨_, rfl, ?_, { cart with Items := [] }, findCart_clearCart hcart, rfl⟩
  simpa using htot

theorem createOrder_succeeds_witness :
    ∃ o, (createOrder staleLineStore (some someRequest) "u1" 7).2 = ⟨201, .order o⟩ ∧
      o.TotalAmount = expectedTotal staleLineStore.products [⟨"p1", 2⟩, ⟨"p9", 1⟩] ∧
      ∃ c, findCart (createOrder staleLineStore (some someRequest) "u1" 7).1.carts "u1"
          = some (1, c) ∧ c.Items.length = 0 :=
  createOrder_succeeds staleLineStore someRequest "u1" 7 1 ⟨"u1", [⟨"p1", 2⟩, ⟨"p9", 1⟩]⟩
    (by decide) (by decide) (by decide) (by
      intro it hit i p hf
      simp only [List.mem_cons, List.mem_singleton, List.not_mem_nil, or_false] at hit
      rcases hit with rfl | rfl
      · have h1 : findProduct staleLineStore.products "p1"
            = some (0, seedProducts.get ⟨0, by decide⟩) := rfl
        rw [h1] at hf
        cases hf
        decide
      · have h9 : findProduct staleLineStore.products "p9" = none := rfl
        rw [h9] at hf
        cases hf)

/-! ## The created order -/

/-- C10: whenever `createOrder` answers 201 with the created order, the request
body had decoded and the user had a cart, and the order has the requesting user
id as UserID, "pending" as Status, the address of the request as ShippingAddr,
and as Items the cart items in cart order, those whose product id is in the
catalog kept and each turned into a line with the ID, Name and Price of the
catalog product and the Quantity of the cart item. -/
theorem createOrder_order_fields (s : Store) (body : Option OrderRequest) (userID : String)
    (now : Int) (o : Order)
    (h : (createOrder s body userID now).2 = ⟨201, .order o⟩) :
    ∃ req i cart, body = some req ∧ findCart s.carts userID = some (i, cart) ∧
      o.UserID = userID ∧ o.Status = "pending" ∧ o.ShippingAddr = req.ShippingAddr ∧
      o.Items = cart.Items.filterMap (fun item =>
        (findProduct s.products item.ProductID).map fun r =>
          { ProductID := r.2.ID, Name := r.2.Name, Price := r.2.Price,
            Quantity := item.Quantity }) := by
  obtain ⟨req, i, cart, ps, ois, tot, hbody, hcart, -, hloop, ho, -⟩ := createOrder_created h
  obtain ⟨hitems, -⟩ := orderLoop_done hloop
  refine ⟨req, i, cart, hbody, hcart, ?_, ?_, ?_, ?_⟩
  · rw [ho]
  · rw [ho]
  · rw [ho]
  · rw [ho]
    simpa [expectedItems, orderItemOf] using hitems

theorem createOrder_order_fields_witness :
    ∃ o, (createOrder staleLineStore (some someRequest) "u1" 7).2 = ⟨201, .order o⟩ ∧
      ∃ req i cart, some someRequest = some req ∧
        findCart staleLineStore.carts "u1" = some (i, cart) ∧
        o.UserID = "u1" ∧ o.Status = "pending" ∧ o.ShippingAddr = req.ShippingAddr ∧
        o.Items = cart.Items.filterMap (fun item =>
          (findProduct staleLineStore.products item.ProductID).map fun r =>
            { ProductID := r.2.ID, Name := r.2.Name, Price := r.2.Price,
              Quantity := item.Quantity }) :=
  ⟨_, rfl, createOrder_order_fields staleLineStore (some someRequest) "u1" 7 _ rfl⟩

/-! ## Stock stays non-negative -/

theorem wrapInt_of_range {x : Int} (h0 : minInt ≤ x) (h1 : x ≤ maxInt) : wrapInt x = x := by
  unfold minInt at h0
  unfold maxInt at h1
  unfold wrapInt
  omega

/-- With non-negative quantities the loop keeps every stock between 0 and
`maxInt`. -/
theorem orderLoop_stock_range (items : List CartItem) (ps : List Product)
    (ois : List OrderItem) (tot : Float64)
    (hstock : ∀ p ∈ ps, 0 ≤ p.Stock ∧ p.Stock ≤ maxInt)
    (hqty : ∀ it ∈ items, 0 ≤ it.Quantity) :
    ∀ p ∈ (orderLoop items ps ois tot).products, 0 ≤ p.Stock ∧ p.Stock ≤ maxInt := by
  induction items generalizing ps ois tot with
  | nil => exact hstock
  | cons it rest ih =>
    have hq := hqty it (List.mem_cons_self _ _)
    have hrest : ∀ jt ∈ rest, 0 ≤ jt.Quantity := fun jt hjt =>
      hqty jt (List.mem_cons_of_mem _ hjt)
    unfold orderLoop
    cases hf : findProduct ps it.ProductID with
    | none => exact ih ps ois tot hstock hrest
    | some r =>
      obtain ⟨i, p⟩ := r
      dsimp only
      split
      · exact hstock
      · rename_i hge
        apply ih _ _ _ _ hrest
        intro q hq'
        rcases List.mem_or_eq_of_mem_set hq' with hq' | rfl
        · exact hstock q hq'
        · have hp := hstock p (List.getElem?_mem (findProduct_some hf).1)
          have hle : it.Quantity ≤ p.Stock := not_lt.1 hge
          have hw : intSub p.Stock it.Quantity = p.Stock - it.Quantity := by
            unfold intSub
            apply wrapInt_of_range
            · unfold minInt; omega
            · omega
          simp only [hw]
          constructor <;> omega

/-- C6 (as stated, refuted): every stock of the seeded catalog is at least 0,
the cart asks for the keyboard (stock 50) with the quantity `minInt`; the stock
check passes, `50 - minInt` wraps around, and the stock of the keyboard after
the call is negative. -/
theorem createOrder_stock_negative :
    (∀ p ∈ overflowStore.products, 0 ≤ p.Stock) ∧
    (createOrder overflowStore (some someRequest) "u1" 7).2.status = 201 ∧
    (createOrder overflowStore (some someRequest) "u1" 7).1.products.map
      (fun p => (p.ID, p.Stock)) = [("p1", -9223372036854775758), ("p2", 100), ("p3", 30)] ∧
    ∃ p ∈ (createOrder overflowStore (some someRequest) "u1" 7).1.products, p.Stock < 0 := by
  refine ⟨by decide, by decide, by decide, ?_⟩
  refine ⟨{ seedProducts.get ⟨0, by decide⟩ with Stock := -9223372036854775758 }, ?_, by decide⟩
  have : (createOrder overflowStore (some someRequest) "u1" 7).1.products =
      { seedProducts.get ⟨0, by decide⟩ with Stock := intSub 50 minInt } ::
        seedProducts.tail := rfl
  rw [this]
  have e : intSub 50 minInt = -9223372036854775758 := by decide
  rw [e]
  exact List.mem_cons_self _ _

/-- C6 (amended): when every stock in the catalog is between 0 and the largest
`int`, and every entry of the cart of the user has a quantity of at least 0,
then after any `createOrder` call, answered 201 or 400, every stock in the
catalog is still between 0 and the largest `int`. -/
theorem createOrder_stock_nonneg (s : Store) (body : Option OrderRequest) (userID : String)
    (now : Int)
    (hstock : ∀ p ∈ s.products, 0 ≤ p.Stock ∧ p.Stock ≤ maxInt)
    (hqty : ∀ i cart, findCart s.carts userID = some (i, cart) →
      ∀ it ∈ cart.Items, 0 ≤ it.Quantity) :
    ∀ p ∈ (createOrder s body userID now).1.products, 0 ≤ p.Stock ∧ p.Stock ≤ maxInt := by
  cases body with
  | none => simpa [createOrder] using hstock
  | some req =>
    cases hc : findCart s.carts userID with
    | none => simpa [createOrder, hc] using hstock
    | some r =>
      obtain ⟨i, cart⟩ := r
      by_cases hlen : cart.Items.length = 0
      · simpa [createOrder, hc, hlen] using hstock
      · have key := orderLoop_stock_range cart.Items s.products [] Float64.zero hstock (hqty i cart hc)
        cases hl : orderLoop cart.Items s.products [] Float64.zero with
        | insufficient ps nm =>
          rw [hl] at key
          simpa [createOrder, hc, hlen, hl] using key
        | done ps ois tot =>
          rw [hl] at key
          simpa [createOrder, hc, hlen, hl] using key

theorem createOrder_stock_nonneg_witness :
    (∀ p ∈ shortStockStore.products, 0 ≤ p.Stock ∧ p.Stock ≤ maxInt) ∧
    (∀ p ∈ (createOrder shortStockStore (some someRequest) "u1" 7).1.products,
      0 ≤ p.Stock ∧ p.Stock ≤ maxInt) :=
  ⟨by decide,
   createOrder_stock_nonneg shortStockStore (some someRequest) "u1" 7 (by decide) (by
    intro i cart hc it hit
    have h1 : findCart shortStockStore.carts "u1"
        = some (0, ⟨"u1", [⟨"p1", 2⟩, ⟨"p2", 200⟩]⟩) := rfl
    rw [h1] at hc
    cases hc
    revert it
    decide)⟩

/-! ## Effect of a successful checkout -/

/-- With unique product ids, the write through the pointer returned by
`findProduct` is the update of the products with that id. -/
theorem set_eq_map {ps : List Product} {id : String} {i : Nat} {p : Product} (x : Int)
    (hnd : (ps.map (fun q => q.ID)).Nodup) (h : findProduct ps id = some (i, p)) :
    ps.set i { p with Stock := intSub p.Stock x } =
      ps.map (fun q => if q.ID = id then { q with Stock := intSub q.Stock x } else q) := by
  induction ps generalizing i with
  | nil => simp [findProduct] at h
  | cons q qs ih =>
    simp only [List.map_cons, List.nodup_cons, List.mem_map, not_exists, not_and] at hnd
    obtain ⟨hq, hnd⟩ := hnd
    unfold findProduct at h
    split at h
    · rename_i hid
      simp only [Option.some.injEq, Prod.mk.injEq] at h
      obtain ⟨rfl, rfl⟩ := h
      simp only [List.set_cons_zero, List.map_cons, hid, if_true, List.cons.injEq, true_and]
      symm
      calc List.map (fun r => if r.ID = id then { r with Stock := intSub r.Stock x } else r) qs
          = List.map (fun r => r) qs := by
            apply List.map_congr_left
            intro r hr
            have : ¬ r.ID = id := fun e => hq r hr (e.trans hid.symm)
            simp [this]
        _ = qs := List.map_id' qs
    · rename_i hid
      cases hf : findProduct qs id with
      | none => simp [hf] at h
      | some r =>
        obtain ⟨j, q'⟩ := r
        simp only [hf, Option.map_some', Option.some.injEq, Prod.mk.injEq] at h
        obtain ⟨rfl, rfl⟩ := h
        simp [hid, ih hnd hf]

theorem stockAfter_cons_ne {it : CartItem} {rest : List CartItem} {p : Product}
    (h : ¬ it.ProductID = p.ID) : stockAfter (it :: rest) p = stockAfter rest p := by
  simp [stockAfter, List.find?_cons, h]

theorem stockAfter_of_not_mem {items : List CartItem} {p : Product}
    (h : ∀ it ∈ items, it.ProductID ≠ p.ID) : stockAfter items p = p := by
  have : items.find? (fun it => decide (it.ProductID = p.ID)) = none := by
    rw [List.find?_eq_none]
    intro it hit
    simpa using h it hit
  simp [stockAfter, this]

theorem stockAfter_of_mem {items : List CartItem} {p : Product} {it : CartItem}
    (hnd : (items.map (fun jt => jt.ProductID)).Nodup) (hit : it ∈ items)
    (hid : it.ProductID = p.ID) :
    stockAfter items p = { p with Stock := intSub p.Stock it.Quantity } := by
  induction items with
  | nil => simp at hit
  | cons jt rest ih =>
    simp only [List.map_cons, List.nodup_cons, List.mem_map, not_exists, not_and] at hnd
    obtain ⟨hj, hnd⟩ := hnd
    rcases List.mem_cons.1 hit with rfl | hit
    · simp [stockAfter, List.find?_cons, hid]
    · have hne : ¬ jt.ProductID = p.ID := fun e => hj it hit (hid.trans e.symm)
      rw [stockAfter_cons_ne hne]
      exact ih hnd hit

/-- With unique product ids in the catalog and at most one cart entry per
product id, a loop that runs to its end leaves every product as `stockAfter`
says. -/
theorem orderLoop_products {items : List CartItem} {ps ps' : List Product}
    {ois ois' : List OrderItem} {tot tot' : Float64}
    (hcat : (ps.map (fun q => q.ID)).Nodup)
    (hnd : (items.map (fun jt => jt.ProductID)).Nodup)
    (h : orderLoop items ps ois tot = .done ps' ois' tot') :
    ps' = ps.map (stockAfter items) := by
  induction items generalizing ps ois tot with
  | nil =>
    simp only [orderLoop, LoopOutcome.done.injEq] at h
    rw [← h.1]
    symm
    calc List.map (stockAfter []) ps = List.map (fun r => r) ps := by
          apply List.map_congr_left
          intro r _
          simp [stockAfter]
      _ = ps := List.map_id' ps
  | cons it rest ih =>
    simp only [List.map_cons, List.nodup_cons, List.mem_map, not_exists, not_and] at hnd
    obtain ⟨hj, hnd⟩ := hnd
    unfold orderLoop at h
    cases hf : findProduct ps it.ProductID with
    | none =>
      simp only [hf] at h
      rw [ih hcat hnd h]
      apply List.map_congr_left
      intro q hq
      have : ¬ it.ProductID = q.ID := fun e => findProduct_none.1 hf q hq e.symm
      rw [stockAfter_cons_ne this]
    | some r =>
      obtain ⟨i, p⟩ := r
      simp only [hf] at h
      split at h
      · simp at h
      · have hids : ((ps.set i { p with Stock := intSub p.Stock it.Quantity }).map
            (fun q => q.ID)) = ps.map (fun q => q.ID) := by
          have := congrArg (List.map (fun q : Product => q.ID))
            (set_stock_noStock (intSub p.Stock it.Quantity) hf)
          simpa [List.map_map, Function.comp_def, noStock] using this
        rw [ih (hids ▸ hcat) hnd h, set_eq_map it.Quantity hcat hf, List.map_map]
        apply List.map_congr_left
        intro q _
        by_cases hq : q.ID = it.ProductID
        · simp only [Function.comp_apply, hq, if_true]
          rw [stockAfter_of_not_mem (fun jt hjt => by
            intro e; exact hj jt hjt e)]
          simp [stockAfter, List.find?_cons, hq]
        · simp only [Function.comp_apply, hq, if_false]
          rw [stockAfter_cons_ne (fun e => hq e.symm)]

/-- With at most one cart entry per product id, a loop that runs to its end
has found, for every cart entry whose product is in the catalog, at least the
stock the entry asks for. -/
theorem orderLoop_done_checked {items : List CartItem} {ps ps' : List Product}
    {ois ois' : List OrderItem} {tot tot' : Float64}
    (hnd : (items.map (fun jt => jt.ProductID)).Nodup)
    (h : orderLoop items ps ois tot = .done ps' ois' tot') :
    ∀ it ∈ items, ∀ i p, findProduct ps it.ProductID = some (i, p) →
      it.Quantity ≤ p.Stock := by
  induction items generalizing ps ois tot with
  | nil => intro it hit; simp at hit
  | cons jt rest ih =>
    simp only [List.map_cons, List.nodup_cons, List.mem_map, not_exists, not_and] at hnd
    obtain ⟨hj, hnd⟩ := hnd
    unfold orderLoop at h
    intro it hit i p hf
    cases hjf : findProduct ps jt.ProductID with
    | none =>
      simp only [hjf] at h
      rcases List.mem_cons.1 hit with rfl | hit
      · rw [hjf] at hf
        cases hf
      · exact ih hnd h it hit i p hf
    | some r =>
      obtain ⟨j, q⟩ := r
      simp only [hjf] at h
      split at h
      · simp at h
      · rename_i hge
        rcases List.mem_cons.1 hit with rfl | hit
        · rw [hjf] at hf
          cases hf
          exact not_lt.1 hge
        · have hne : it.ProductID ≠ jt.ProductID := hj it hit
          apply ih hnd h it hit i p
          rw [findProduct_set_other _ hjf hne]
          exact hf

/-- With unique product ids the lookup of the id of a product of the catalog
returns that product. -/
theorem findProduct_of_mem {ps : List Product} {p : Product}
    (hcat : (ps.map (fun q => q.ID)).Nodup) (hp : p ∈ ps) :
    ∃ i, findProduct ps p.ID = some (i, p) := by
  induction ps with
  | nil => simp at hp
  | cons q qs ih =>
    simp only [List.map_cons, List.nodup_cons, List.mem_map, not_exists, not_and] at hcat
    obtain ⟨hq, hcat⟩ := hcat
    rcases List.mem_cons.1 hp with rfl | hp
    · exact ⟨0, by simp [findProduct]⟩
    · obtain ⟨i, hi⟩ := ih hcat hp
      have hne : ¬ q.ID = p.ID := fun e => hq p hp e.symm
      exact ⟨i + 1, by simp [findProduct, hne, hi]⟩

/-- C9 (as stated, refuted): the catalog has one product with the largest
`int` as stock and the cart asks for it with the quantity -1. The call is
answered 201 and the stock after the call is the smallest `int`, which is not
the stock before the call minus the quantity. -/
theorem createOrder_stock_wraps :
    (wrapStore.products.map (fun p => p.ID)).Nodup ∧
    (∃ i cart, findCart wrapStore.carts "u1" = some (i, cart) ∧
      (cart.Items.map (fun it => it.ProductID)).Nodup ∧
      cart.Items.map (fun it => (it.ProductID, it.Quantity)) = [("p1", -1)]) ∧
    (createOrder wrapStore (some someRequest) "u1" 7).2.status = 201 ∧
    wrapStore.products.map (fun p => (p.ID, p.Stock)) = [("p1", 9223372036854775807)] ∧
    (createOrder wrapStore (some someRequest) "u1" 7).1.products.map
      (fun p => (p.ID, p.Stock)) = [("p1", -9223372036854775808)] ∧
    (-9223372036854775808 : Int) ≠ 9223372036854775807 - (-1) := by
  refine ⟨by decide, ⟨0, ⟨"u1", [⟨"p1", -1⟩]⟩, rfl, by decide, by decide⟩, by decide,
    by decide, by decide, by decide⟩

/-- C9 (amended): with unique product ids in the catalog and at most one cart
entry per product id, a call of `createOrder` answered 201 leaves the catalog
as the old one with `stockAfter` applied to every product: a product whose id
is the product id of a cart entry had at least the stock the entry asks for
and has its stock reduced by the quantity of that entry in 64-bit wrap-around
arithmetic. That is the exact difference whenever the difference lies in the
`int` range, and it does so for every quantity of 0 or more (`p.Stock ≤
maxInt` says that the stock is a value of the type `int`). Every other product
is unchanged, and no field other than `Stock` changes. The order list is the
old one with the created order appended, and the cart list is the old one with
the items of the cart of the user removed, so every cart of another user is
unchanged. -/
theorem createOrder_effect (s : Store) (body : Option OrderRequest) (userID : String)
    (now : Int) (o : Order)
    (h : (createOrder s body userID now).2 = ⟨201, .order o⟩)
    (hcat : (s.products.map (fun p => p.ID)).Nodup)
    (hnodup : ∀ i cart, findCart s.carts userID = some (i, cart) →
      (cart.Items.map (fun it => it.ProductID)).Nodup) :
    ∃ i cart, findCart s.carts userID = some (i, cart) ∧
      (createOrder s body userID now).1.products = s.products.map (stockAfter cart.Items) ∧
      (∀ p ∈ s.products, ∀ it ∈ cart.Items, it.ProductID = p.ID →
        it.Quantity ≤ p.Stock ∧
        stockAfter cart.Items p = { p with Stock := intSub p.Stock it.Quantity } ∧
        (minInt ≤ p.Stock - it.Quantity → p.Stock - it.Quantity ≤ maxInt →
          (stockAfter cart.Items p).Stock = p.Stock - it.Quantity) ∧
        (0 ≤ it.Quantity → p.Stock ≤ maxInt →
          (stockAfter cart.Items p).Stock = p.Stock - it.Quantity)) ∧
      (∀ p ∈ s.products, (∀ it ∈ cart.Items, it.ProductID ≠ p.ID) →
        stockAfter cart.Items p = p) ∧
      (∀ p ∈ s.products, noStock (stockAfter cart.Items p) = noStock p) ∧
      (createOrder s body userID now).1.orders = s.orders ++ [o] ∧
      (createOrder s body userID now).1.carts = s.carts.set i { cart with Items := [] } ∧
      (createOrder s body userID now).1.carts.length = s.carts.length ∧
      (∀ (j : Nat) (c : Cart), s.carts[j]? = some c → c.UserID ≠ userID →
        (createOrder s body userID now).1.carts[j]? = some c) := by
  obtain ⟨req, i, cart, ps, ois, tot, -, hcart, -, hloop, -, hstore⟩ := createOrder_created h
  have hnd := hnodup i cart hcart
  have hclear : clearCart s.carts userID = s.carts.set i { cart with Items := [] } := by
    simp [clearCart, hcart]
  refine ⟨i, cart, hcart, ?_, ?_, ?_, ?_, ?_, ?_, ?_, ?_⟩
  · rw [hstore]
    exact orderLoop_products hcat hnd hloop
  · intro p hp it hit hid
    have e := stockAfter_of_mem hnd hit hid
    obtain ⟨k, hk⟩ := findProduct_of_mem hcat hp
    have hle : it.Quantity ≤ p.Stock :=
      orderLoop_done_checked hnd hloop it hit k p (hid ▸ hk)
    refine ⟨hle, e, fun h0 h1 => ?_, fun h0 h1 => ?_⟩
    · rw [e]
      exact wrapInt_of_range h0 h1
    · rw [e]
      apply wrapInt_of_range
      · unfold minInt; omega
      · omega
  · intro p _ hp
    exact stockAfter_of_not_mem hp
  · intro p _
    unfold stockAfter
    split <;> rfl
  · rw [hstore]
  · rw [hstore, ← hclear]
  · rw [hstore, hclear, List.length_set]
  · intro j c hj hu
    rw [hstore, hclear]
    have hij : i ≠ j := by
      rintro rfl
      have := (findCart_some hcart).1
      rw [this] at hj
      cases hj
      exact hu (findCart_some hcart).2
    rw [List.getElem?_set_ne hij]
    exact hj

theorem createOrder_effect_witness :
    ∃ o, (createOrder staleLineStore (some someRequest) "u1" 7).2 = ⟨201, .order o⟩ ∧
      ∃ i cart, findCart staleLineStore.carts "u1" = some (i, cart) ∧
        (createOrder staleLineStore (some someRequest) "u1" 7).1.products
          = staleLineStore.products.map (stockAfter cart.Items) ∧
        (createOrder staleLineStore (some someRequest) "u1" 7).1.orders
          = staleLineStore.orders ++ [o] ∧
        (createOrder staleLineStore (some someRequest) "u1" 7).1.carts
          = staleLineStore.carts.set i { cart with Items := [] } :=
  have h := createOrder_effect staleLineStore (some someRequest) "u1" 7 _ rfl (by decide) (by
    intro i cart hc
    have h1 : findCart staleLineStore.carts "u1"
        = some (1, ⟨"u1", [⟨"p1", 2⟩, ⟨"p9", 1⟩]⟩) := rfl
    rw [h1] at hc
    cases hc
    decide)
  match h with
  | ⟨i, cart, hc, hp, _, _, _, ho, hcs, _⟩ => ⟨_, rfl, i, cart, hc, hp, ho, hcs⟩

/-! ## Order identifiers -/

/-- Each of the first 48 rounds of the run is answered 201. -/
theorem checkoutRun_created :
    ∀ n < 48, (createOrder (refill (checkoutRun n)) (some someRequest) "u1" 7).2.status = 201 := by
  decide

theorem checkoutRun_reachable (n : Nat) (hn : n ≤ 48) :
    ReachableOrders 0 (checkoutRun n).orders := by
  induction n with
  | zero => exact ReachableOrders.seed
  | succ n ih =>
    have h := ReachableOrders.create (refill (checkoutRun n)) (some someRequest) "u1" 7
      (ih (by omega)) (checkoutRun_created n (by omega))
    exact h

/-- C7 (the code at the failing input): from the seeded stores, the customer
puts one keyboard into the cart and checks out, 48 times. Every call is
answered 201, so the order list after each round is reachable. Before the 48th
call the list holds 48 orders, the first with the id "o1"; the 48th call
assigns "o" followed by `string(49)`, which is "o1" again, and the ids of the
list after it are not pairwise distinct. -/
theorem order_ids_collide :
    ReachableOrders 0 (checkoutRun 47).orders ∧
    ReachableOrders 0 (checkoutRun 48).orders ∧
    (checkoutRun 47).orders.length = 48 ∧
    ((checkoutRun 47).orders.map (fun o => o.ID)).head? = some "o1" ∧
    (∃ o, (createOrder (refill (checkoutRun 47)) (some someRequest) "u1" 7).2
        = ⟨201, .order o⟩ ∧ o.ID = "o1") ∧
    ¬ ((checkoutRun 48).orders.map (fun o => o.ID)).Nodup := by
  refine ⟨checkoutRun_reachable 47 (by omega), checkoutRun_reachable 48 (by omega),
    by decide, by decide, ?_, by decide⟩
  obtain ⟨o, ho⟩ := createOrder_status_created (checkoutRun_created 47 (by omega))
  refine ⟨o, ho, ?_⟩
  obtain ⟨_, _, _, _, _, _, -, -, -, -, hid, -⟩ := createOrder_created ho
  have h48 : (refill (checkoutRun 47)).orders.length = 48 := by decide
  rw [hid, h48]
  show "o" ++ runeString (48 + 1) = "o1"
  decide

/-! ## The cart handlers: what each call does to the cart list -/

theorem findItem_some {items : List CartItem} {id : String} {i : Nat} {it : CartItem}
    (h : findItem items id = some (i, it)) : items[i]? = some it ∧ it.ProductID = id := by
  induction items generalizing i with
  | nil => simp [findItem] at h
  | cons jt rest ih =>
    unfold findItem at h
    split at h
    · rename_i hj
      simp only [Option.some.injEq, Prod.mk.injEq] at h
      obtain ⟨rfl, rfl⟩ := h
      exact ⟨by simp, hj⟩
    · cases hf : findItem rest id with
      | none => simp [hf] at h
      | some r =>
        obtain ⟨j, kt⟩ := r
        simp only [hf, Option.map_some', Option.some.injEq, Prod.mk.injEq] at h
        obtain ⟨rfl, rfl⟩ := h
        have := ih hf
        exact ⟨by simpa using this.1, this.2⟩

theorem findItem_none {items : List CartItem} {id : String} :
    findItem items id = none ↔ ∀ it ∈ items, it.ProductID ≠ id := by
  induction items with
  | nil => simp [findItem]
  | cons jt rest ih =>
    unfold findItem
    by_cases hj : jt.ProductID = id
    · simp [hj]
    · simp [hj, ih]

theorem findCart_none {cs : List Cart} {u : String} :
    findCart cs u = none ↔ ∀ c ∈ cs, c.UserID ≠ u := by
  induction cs with
  | nil => simp [findCart]
  | cons d ds ih =>
    unfold findCart
    by_cases hd : d.UserID = u
    · simp [hd]
    · simp [hd, ih]

/-- A quantity update through the pointer returned by `findItem` changes no
product id, at no position. -/
theorem set_quantity_ids {items : List CartItem} {id : String} {i : Nat} {it : CartItem}
    (x : Int) (h : findItem items id = some (i, it)) :
    (items.set i { it with Quantity := x }).map (fun jt => jt.ProductID) =
      items.map (fun jt => jt.ProductID) := by
  induction items generalizing i with
  | nil => simp [findItem] at h
  | cons jt rest ih =>
    unfold findItem at h
    split at h
    · simp only [Option.some.injEq, Prod.mk.injEq] at h
      obtain ⟨rfl, rfl⟩ := h
      simp
    · cases hf : findItem rest id with
      | none => simp [hf] at h
      | some r =>
        obtain ⟨j, kt⟩ := r
        simp only [hf, Option.map_some', Option.some.injEq, Prod.mk.injEq] at h
        obtain ⟨rfl, rfl⟩ := h
        simp [ih hf]

/-- Replacing the cart returned by `findCart` by a cart of the same user
changes no user id, at no position. -/
theorem set_cart_users {cs : List Cart} {u : String} {i : Nat} {c : Cart} (c' : Cart)
    (h : findCart cs u = some (i, c)) (hu : c'.UserID = u) :
    (cs.set i c').map (fun d => d.UserID) = cs.map (fun d => d.UserID) := by
  induction cs generalizing i with
  | nil => simp [findCart] at h
  | cons d ds ih =>
    unfold findCart at h
    split at h
    · rename_i hd
      simp only [Option.some.injEq, Prod.mk.injEq] at h
      obtain ⟨rfl, rfl⟩ := h
      simp [hu, hd]
    · cases hf : findCart ds u with
      | none => simp [hf] at h
      | some r =>
        obtain ⟨j, e⟩ := r
        simp only [hf, Option.map_some', Option.some.injEq, Prod.mk.injEq] at h
        obtain ⟨rfl, rfl⟩ := h
        simp [ih hf]

/-- The cart list after `getCart`. -/
theorem getCart_store (s : Store) (userID : String) :
    (∃ i c, findCart s.carts userID = some (i, c) ∧ (getCart s userID).1 = s) ∨
    (findCart s.carts userID = none ∧
      (getCart s userID).1 = ⟨s.products, s.carts ++ [⟨userID, []⟩], s.orders⟩) := by
  cases hc : findCart s.carts userID with
  | none => right; simp [getCart, hc]
  | some r =>
    obtain ⟨i, c⟩ := r
    left
    exact ⟨i, c, rfl, by simp [getCart, hc]⟩

/-- A request that `addToCart` rejects leaves the store as it was. -/
theorem addToCart_rejected (s : Store) (body : Option CartRequest) (userID : String)
    (h : body = none ∨ ∃ req, body = some req ∧ req.Quantity ≤ 0) :
    (addToCart s body userID).1 = s := by
  rcases h with rfl | ⟨req, rfl, hq⟩
  · rfl
  · simp [addToCart, hq]

/-- The cart list after an accepted `addToCart`, in the three cases of the
handler: the product is in the cart of the user, the user has a cart without
the product, the user has no cart. -/
theorem addToCart_accepted (s : Store) (req : CartRequest) (userID : String)
    (hq : 0 < req.Quantity) :
    (∃ i c j it, findCart s.carts userID = some (i, c) ∧
      findItem c.Items req.ProductID = some (j, it) ∧
      (addToCart s (some req) userID).1 = ⟨s.products, s.carts.set i ⟨c.UserID,
        c.Items.set j ⟨it.ProductID, intAdd it.Quantity req.Quantity⟩⟩, s.orders⟩) ∨
    (∃ i c, findCart s.carts userID = some (i, c) ∧
      findItem c.Items req.ProductID = none ∧
      (addToCart s (some req) userID).1 = ⟨s.products, s.carts.set i ⟨c.UserID,
        c.Items ++ [⟨req.ProductID, req.Quantity⟩]⟩, s.orders⟩) ∨
    (findCart s.carts userID = none ∧
      (addToCart s (some req) userID).1 = ⟨s.products, s.carts ++
        [⟨userID, [⟨req.ProductID, req.Quantity⟩]⟩], s.orders⟩) := by
  have hq' : ¬ req.Quantity ≤ 0 := not_le.2 hq
  cases hc : findCart s.carts userID with
  | none =>
    right; right
    refine ⟨rfl, ?_⟩
    simp [addToCart, hq', hc, findItem]
  | some r =>
    obtain ⟨i, c⟩ := r
    cases hi : findItem c.Items req.ProductID with
    | none =>
      right; left
      exact ⟨i, c, rfl, hi, by simp [addToCart, hq', hc, hi]⟩
    | some r =>
      obtain ⟨j, it⟩ := r
      left
      exact ⟨i, c, j, it, rfl, hi, by simp [addToCart, hq', hc, hi]⟩

/-- The cart list after `updateCart`: unchanged when the call is answered 400
or 404, the item removed when the quantity is not above 0, and the quantity
stored otherwise. -/
theorem updateCart_store (s : Store) (body : Option CartRequest) (userID : String) :
    (updateCart s body userID).1 = s ∨
    ∃ req i c j it, body = some req ∧ findCart s.carts userID = some (i, c) ∧
      findItem c.Items req.ProductID = some (j, it) ∧
      ((req.Quantity ≤ 0 ∧ (updateCart s body userID).1 =
          ⟨s.products, s.carts.set i ⟨c.UserID, c.Items.eraseIdx j⟩, s.orders⟩) ∨
       (0 < req.Quantity ∧ (updateCart s body userID).1 =
          ⟨s.products, s.carts.set i ⟨c.UserID,
            c.Items.set j ⟨it.ProductID, req.Quantity⟩⟩, s.orders⟩)) := by
  cases body with
  | none => left; rfl
  | some req =>
    cases hc : findCart s.carts userID with
    | none => left; simp [updateCart, hc]
    | some r =>
      obtain ⟨i, c⟩ := r
      cases hi : findItem c.Items req.ProductID with
      | none => left; simp [updateCart, hc, hi]
      | some r =>
        obtain ⟨j, it⟩ := r
        right
        refine ⟨req, i, c, j, it, rfl, rfl, hi, ?_⟩
        by_cases hq : req.Quantity ≤ 0
        · left; exact ⟨hq, by simp [updateCart, hc, hi, hq]⟩
        · right; exact ⟨not_le.1 hq, by simp [updateCart, hc, hi, hq]⟩

/-- The cart list after `removeFromCart`: unchanged when the call is answered
400 or 404, and the item removed otherwise. -/
theorem removeFromCart_store (s : Store) (productID : String) (userID : String) :
    (removeFromCart s productID userID).1 = s ∨
    ∃ i c j it, findCart s.carts userID = some (i, c) ∧
      findItem c.Items productID = some (j, it) ∧
      (removeFromCart s productID userID).1 =
        ⟨s.products, s.carts.set i ⟨c.UserID, c.Items.eraseIdx j⟩, s.orders⟩ := by
  by_cases hp : productID = ""
  · left; simp [removeFromCart, hp]
  · cases hc : findCart s.carts userID with
    | none => left; simp [removeFromCart, hp, hc]
    | some r =>
      obtain ⟨i, c⟩ := r
      cases hi : findItem c.Items productID with
      | none => left; simp [removeFromCart, hp, hc, hi]
      | some r =>
        obtain ⟨j, it⟩ := r
        right
        exact ⟨i, c, j, it, rfl, hi, by simp [removeFromCart, hp, hc, hi]⟩

/-! ## Positive quantities -/

theorem quantitiesPositive_of_find {s : Store} {u : String} {i : Nat} {c : Cart}
    (hpos : QuantitiesPositive s) (hc : findCart s.carts u = some (i, c)) :
    ∀ it ∈ c.Items, 0 < it.Quantity :=
  hpos c (List.getElem?_mem (findCart_some hc).1)

theorem quantitiesPositive_set {s : Store} (i : Nat) (c' : Cart)
    (hpos : QuantitiesPositive s) (hc' : ∀ it ∈ c'.Items, 0 < it.Quantity) :
    QuantitiesPositive ⟨s.products, s.carts.set i c', s.orders⟩ := by
  intro c hc
  rcases List.mem_or_eq_of_mem_set hc with hc | rfl
  · exact hpos c hc
  · exact hc'

theorem quantitiesPositive_append {s : Store} (c' : Cart)
    (hpos : QuantitiesPositive s) (hc' : ∀ it ∈ c'.Items, 0 < it.Quantity) :
    QuantitiesPositive ⟨s.products, s.carts ++ [c'], s.orders⟩ := by
  intro c hc
  rcases List.mem_append.1 hc with hc | hc
  · exact hpos c hc
  · rw [List.mem_singleton.1 hc]
    exact hc'

theorem getCart_positive (s : Store) (userID : String) (hpos : QuantitiesPositive s) :
    QuantitiesPositive (getCart s userID).1 := by
  rcases getCart_store s userID with ⟨_, _, _, h⟩ | ⟨_, h⟩
  · rw [h]; exact hpos
  · rw [h]
    exact quantitiesPositive_append _ hpos (by simp)

theorem addToCart_positive (s : Store) (body : Option CartRequest) (userID : String)
    (hpos : QuantitiesPositive s)
    (hfit : ∀ req i c j it, body = some req → findCart s.carts userID = some (i, c) →
      findItem c.Items req.ProductID = some (j, it) → it.Quantity + req.Quantity ≤ maxInt) :
    QuantitiesPositive (addToCart s body userID).1 := by
  cases body with
  | none => rw [addToCart_rejected s none userID (Or.inl rfl)]; exact hpos
  | some req =>
    by_cases hq : req.Quantity ≤ 0
    · rw [addToCart_rejected s (some req) userID (Or.inr ⟨req, rfl, hq⟩)]; exact hpos
    · have hq' : 0 < req.Quantity := not_le.1 hq
      rcases addToCart_accepted s req userID hq' with
        ⟨i, c, j, it, hc, hi, h⟩ | ⟨i, c, hc, _, h⟩ | ⟨_, h⟩
      · rw [h]
        apply quantitiesPositive_set _ _ hpos
        intro jt hjt
        have hcpos := quantitiesPositive_of_find hpos hc
        rcases List.mem_or_eq_of_mem_set hjt with hjt | rfl
        · exact hcpos jt hjt
        · have hit : 0 < it.Quantity := hcpos it (List.getElem?_mem (findItem_some hi).1)
          have hle := hfit req i c j it rfl hc hi
          have hw : intAdd it.Quantity req.Quantity = it.Quantity + req.Quantity := by
            unfold intAdd
            apply wrapInt_of_range
            · unfold minInt; omega
            · exact hle
          simp only [hw]
          omega
      · rw [h]
        apply quantitiesPositive_set _ _ hpos
        intro jt hjt
        rcases List.mem_append.1 hjt with hjt | hjt
        · exact quantitiesPositive_of_find hpos hc jt hjt
        · rw [List.mem_singleton.1 hjt]; exact hq'
      · rw [h]
        apply quantitiesPositive_append _ hpos
        intro jt hjt
        rw [List.mem_singleton.1 hjt]; exact hq'

theorem updateCart_positive (s : Store) (body : Option CartRequest) (userID : String)
    (hpos : QuantitiesPositive s) : QuantitiesPositive (updateCart s body userID).1 := by
  rcases updateCart_store s body userID with h | ⟨req, i, c, j, it, _, hc, _, h⟩
  · rw [h]; exact hpos
  · have hcpos := quantitiesPositive_of_find hpos hc
    rcases h with ⟨_, h⟩ | ⟨hq, h⟩
    · rw [h]
      apply quantitiesPositive_set _ _ hpos
      intro jt hjt
      exact hcpos jt (List.mem_of_mem_eraseIdx hjt)
    · rw [h]
      apply quantitiesPositive_set _ _ hpos
      intro jt hjt
      rcases List.mem_or_eq_of_mem_set hjt with hjt | rfl
      · exact hcpos jt hjt
      · exact hq

theorem removeFromCart_positive (s : Store) (productID userID : String)
    (hpos : QuantitiesPositive s) :
    QuantitiesPositive (removeFromCart s productID userID).1 := by
  rcases removeFromCart_store s productID userID with h | ⟨i, c, j, it, hc, _, h⟩
  · rw [h]; exact hpos
  · rw [h]
    apply quantitiesPositive_set _ _ hpos
    intro jt hjt
    exact quantitiesPositive_of_find hpos hc jt (List.mem_of_mem_eraseIdx hjt)

/-- C11 (the code at the failing input): in the seeded stores the cart of u1
holds 2 keyboards and every quantity is above 0. `POST /cart/u1` with the
keyboard and the quantity 9223372036854775807 passes the guard `req.Quantity <=
0`, is answered 200, and the sum `2 + 9223372036854775807` wraps around: the
cart then holds the keyboard with the quantity -9223372036854775807. -/
theorem addToCart_guard_overflow :
    ReachableStore seedStore ∧
    QuantitiesPositive seedStore ∧
    seedStore.carts = [⟨"u1", [⟨"p1", 2⟩]⟩] ∧
    addToCart seedStore (some ⟨"p1", 9223372036854775807⟩) "u1" =
      (⟨seedProducts, [⟨"u1", [⟨"p1", -9223372036854775807⟩]⟩], seedOrders 0⟩,
       ⟨200, .cart ⟨"u1", [⟨"p1", -9223372036854775807⟩]⟩⟩) ∧
    ¬ QuantitiesPositive (addToCart seedStore (some ⟨"p1", 9223372036854775807⟩) "u1").1 := by
  refine ⟨ReachableStore.seed 0, ?_, by decide, by decide, ?_⟩
  · unfold QuantitiesPositive
    decide
  · unfold QuantitiesPositive
    decide

/-- The same wrap-around at a cart that holds the keyboard with the largest
`int` as quantity: one more keyboard is accepted and the quantity becomes the
smallest `int`. -/
theorem addToCart_quantity_negative :
    QuantitiesPositive fullCartStore ∧
    (addToCart fullCartStore (some ⟨"p1", 1⟩) "u1").2.status = 200 ∧
    (addToCart fullCartStore (some ⟨"p1", 1⟩) "u1").1.carts =
      [⟨"u1", [⟨"p1", -9223372036854775808⟩, ⟨"p2", 3⟩]⟩] ∧
    ¬ QuantitiesPositive (addToCart fullCartStore (some ⟨"p1", 1⟩) "u1").1 := by
  refine ⟨?_, by decide, by decide, ?_⟩
  · unfold QuantitiesPositive
    decide
  · unfold QuantitiesPositive
    decide

/-- What the cart handlers do keep: when every item of every cart has a
quantity above 0, the same holds after any single call of `getCart`,
`updateCart` or `removeFromCart`, and after a call of `addToCart` unless the
sum of the requested quantity and the quantity of the entry it is added to
exceeds the largest `int`. `addToCart` with a quantity of 0 or less is answered
400 "Quantity must be positive" and changes nothing; `updateCart` with a
quantity of 0 or less for a product in the cart removes that entry. -/
theorem cart_quantities_positive (s : Store) (addBody updateBody : Option CartRequest)
    (productID userID : String) (hpos : QuantitiesPositive s) :
    QuantitiesPositive (getCart s userID).1 ∧
    ((∀ req i c j it, addBody = some req → findCart s.carts userID = some (i, c) →
        findItem c.Items req.ProductID = some (j, it) →
        it.Quantity + req.Quantity ≤ maxInt) →
      QuantitiesPositive (addToCart s addBody userID).1) ∧
    QuantitiesPositive (updateCart s updateBody userID).1 ∧
    QuantitiesPositive (removeFromCart s productID userID).1 ∧
    (∀ req, addBody = some req → req.Quantity ≤ 0 →
      addToCart s addBody userID = (s, ⟨400, .error "Quantity must be positive"⟩)) ∧
    (∀ req i c j it, updateBody = some req → req.Quantity ≤ 0 →
      findCart s.carts userID = some (i, c) →
      findItem c.Items req.ProductID = some (j, it) →
      (updateCart s updateBody userID).1.carts =
        s.carts.set i ⟨c.UserID, c.Items.eraseIdx j⟩) := by
  refine ⟨getCart_positive s userID hpos,
    fun hfit => addToCart_positive s addBody userID hpos hfit,
    updateCart_positive s updateBody userID hpos,
    removeFromCart_positive s productID userID hpos, ?_, ?_⟩
  · rintro req rfl hq
    simp [addToCart, hq]
  · rintro req i c j it rfl hq hc hi
    simp [updateCart, hc, hi, hq]

/-! ## One entry per product -/

theorem oneEntry_of_find {s : Store} {u : String} {i : Nat} {c : Cart}
    (hinv : OneEntryPerProduct s) (hc : findCart s.carts u = some (i, c)) :
    (c.Items.map fun it => it.ProductID).Nodup :=
  hinv.1 c (List.getElem?_mem (findCart_some hc).1)

theorem oneEntry_set {s : Store} {u : String} {i : Nat} {c : Cart} (c' : Cart)
    (hinv : OneEntryPerProduct s) (hc : findCart s.carts u = some (i, c))
    (hu : c'.UserID = u) (hc' : (c'.Items.map fun it => it.ProductID).Nodup) :
    OneEntryPerProduct ⟨s.products, s.carts.set i c', s.orders⟩ := by
  constructor
  · intro d hd
    rcases List.mem_or_eq_of_mem_set hd with hd | rfl
    · exact hinv.1 d hd
    · exact hc'
  · show ((s.carts.set i c').map fun d => d.UserID).Nodup
    rw [set_cart_users c' hc hu]
    exact hinv.2

theorem oneEntry_append {s : Store} {u : String} (c' : Cart)
    (hinv : OneEntryPerProduct s) (hc : findCart s.carts u = none)
    (hu : c'.UserID = u) (hc' : (c'.Items.map fun it => it.ProductID).Nodup) :
    OneEntryPerProduct ⟨s.products, s.carts ++ [c'], s.orders⟩ := by
  constructor
  · intro d hd
    rcases List.mem_append.1 hd with hd | hd
    · exact hinv.1 d hd
    · rw [List.mem_singleton.1 hd]; exact hc'
  · show ((s.carts ++ [c']).map fun d => d.UserID).Nodup
    rw [List.map_append, List.nodup_append]
    refine ⟨hinv.2, by simp, ?_⟩
    intro x hx hx'
    simp only [List.map_cons, List.map_nil, List.mem_singleton] at hx'
    obtain ⟨d, hd, rfl⟩ := List.mem_map.1 hx
    exact findCart_none.1 hc d hd (hx'.trans hu)

theorem nodup_eraseIdx {items : List CartItem} (j : Nat)
    (h : (items.map fun it => it.ProductID).Nodup) :
    ((items.eraseIdx j).map fun it => it.ProductID).Nodup :=
  List.Nodup.sublist (List.Sublist.map _ (List.eraseIdx_sublist items j)) h

theorem nodup_append_item {items : List CartItem} {id : String} (q : Int)
    (h : (items.map fun it => it.ProductID).Nodup) (hi : findItem items id = none) :
    ((items ++ [(⟨id, q⟩ : CartItem)]).map fun it => it.ProductID).Nodup := by
  rw [List.map_append, List.nodup_append]
  refine ⟨h, by simp, ?_⟩
  intro x hx hx'
  simp only [List.map_cons, List.map_nil, List.mem_singleton] at hx'
  obtain ⟨it, hit, rfl⟩ := List.mem_map.1 hx
  exact findItem_none.1 hi it hit hx'

theorem getCart_oneEntry (s : Store) (userID : String) (hinv : OneEntryPerProduct s) :
    OneEntryPerProduct (getCart s userID).1 := by
  rcases getCart_store s userID with ⟨_, _, _, h⟩ | ⟨hc, h⟩
  · rw [h]; exact hinv
  · rw [h]
    exact oneEntry_append _ hinv hc rfl (by simp)

theorem addToCart_oneEntry (s : Store) (body : Option CartRequest) (userID : String)
    (hinv : OneEntryPerProduct s) : OneEntryPerProduct (addToCart s body userID).1 := by
  cases body with
  | none => rw [addToCart_rejected s none userID (Or.inl rfl)]; exact hinv
  | some req =>
    by_cases hq : req.Quantity ≤ 0
    · rw [addToCart_rejected s (some req) userID (Or.inr ⟨req, rfl, hq⟩)]; exact hinv
    · rcases addToCart_accepted s req userID (not_le.1 hq) with
        ⟨i, c, j, it, hc, hi, h⟩ | ⟨i, c, hc, hi, h⟩ | ⟨hc, h⟩
      · rw [h]
        refine oneEntry_set (Cart.mk c.UserID _) hinv hc (findCart_some hc).2 ?_
        show ((c.Items.set j ⟨it.ProductID, intAdd it.Quantity req.Quantity⟩).map
          fun jt => jt.ProductID).Nodup
        rw [set_quantity_ids (intAdd it.Quantity req.Quantity) hi]
        exact oneEntry_of_find hinv hc
      · rw [h]
        refine oneEntry_set (Cart.mk c.UserID _) hinv hc (findCart_some hc).2 ?_
        exact nodup_append_item _ (oneEntry_of_find hinv hc) hi
      · rw [h]
        apply oneEntry_append _ hinv hc rfl
        simp

theorem updateCart_oneEntry (s : Store) (body : Option CartRequest) (userID : String)
    (hinv : OneEntryPerProduct s) : OneEntryPerProduct (updateCart s body userID).1 := by
  rcases updateCart_store s body userID with h | ⟨req, i, c, j, it, _, hc, hi, h⟩
  · rw [h]; exact hinv
  · rcases h with ⟨_, h⟩ | ⟨_, h⟩
    · rw [h]
      refine oneEntry_set (Cart.mk c.UserID _) hinv hc (findCart_some hc).2 ?_
      exact nodup_eraseIdx j (oneEntry_of_find hinv hc)
    · rw [h]
      refine oneEntry_set (Cart.mk c.UserID _) hinv hc (findCart_some hc).2 ?_
      show ((c.Items.set j ⟨it.ProductID, req.Quantity⟩).map fun jt => jt.ProductID).Nodup
      rw [set_quantity_ids req.Quantity hi]
      exact oneEntry_of_find hinv hc

theorem removeFromCart_oneEntry (s : Store) (productID userID : String)
    (hinv : OneEntryPerProduct s) :
    OneEntryPerProduct (removeFromCart s productID userID).1 := by
  rcases removeFromCart_store s productID userID with h | ⟨i, c, j, it, hc, _, h⟩
  · rw [h]; exact hinv
  · rw [h]
    refine oneEntry_set (Cart.mk c.UserID _) hinv hc (findCart_some hc).2 ?_
    exact nodup_eraseIdx j (oneEntry_of_find hinv hc)

/-- C12 (as stated, refuted): no cart of the store has two items with the same
product id. `addToCart` with the keyboard, which is in the cart of u1 with the
largest `int` as quantity, and the quantity 1 is answered 200 and keeps one
entry for the keyboard, but the quantity of that entry after the call is the
smallest `int`, not the old quantity plus the requested one. -/
theorem addToCart_sum_wraps :
    OneEntryPerProduct fullCartStore ∧
    fullCartStore.carts = [⟨"u1", [⟨"p1", 9223372036854775807⟩, ⟨"p2", 3⟩]⟩] ∧
    (addToCart fullCartStore (some ⟨"p1", 1⟩) "u1").2.status = 200 ∧
    (addToCart fullCartStore (some ⟨"p1", 1⟩) "u1").1.carts =
      [⟨"u1", [⟨"p1", -9223372036854775808⟩, ⟨"p2", 3⟩]⟩] ∧
    (-9223372036854775808 : Int) ≠ 9223372036854775807 + 1 := by
  refine ⟨?_, by decide, by decide, by decide, by decide⟩
  unfold OneEntryPerProduct
  decide

/-- C12 (amended): when no cart has two items with the same product id and no
two carts have the same user id, the same holds after any single call of
`getCart`, `addToCart`, `updateCart` or `removeFromCart`. An accepted
`addToCart` for a product already in the cart of the user replaces the
quantity of the existing entry by the sum of that quantity and the requested
one in 64-bit wrap-around arithmetic (the exact sum whenever it lies in the
`int` range), appends no entry and leaves every other entry of the cart and
every other cart as they were. -/
theorem cart_one_entry_per_product (s : Store) (body : Option CartRequest)
    (productID userID : String) (hinv : OneEntryPerProduct s) :
    OneEntryPerProduct (getCart s userID).1 ∧
    OneEntryPerProduct (addToCart s body userID).1 ∧
    OneEntryPerProduct (updateCart s body userID).1 ∧
    OneEntryPerProduct (removeFromCart s productID userID).1 ∧
    (∀ req i c j it, body = some req → 0 < req.Quantity →
      findCart s.carts userID = some (i, c) →
      findItem c.Items req.ProductID = some (j, it) →
      (addToCart s body userID).1.carts = s.carts.set i ⟨c.UserID,
        c.Items.set j ⟨it.ProductID, intAdd it.Quantity req.Quantity⟩⟩ ∧
      (minInt ≤ it.Quantity + req.Quantity → it.Quantity + req.Quantity ≤ maxInt →
        intAdd it.Quantity req.Quantity = it.Quantity + req.Quantity)) := by
  refine ⟨getCart_oneEntry s userID hinv, addToCart_oneEntry s body userID hinv,
    updateCart_oneEntry s body userID hinv, removeFromCart_oneEntry s productID userID hinv,
    ?_⟩
  rintro req i c j it rfl hq hc hi
  refine ⟨?_, fun h0 h1 => wrapInt_of_range h0 h1⟩
  have hq' : ¬ req.Quantity ≤ 0 := not_le.2 hq
  simp [addToCart, hq', hc, hi]

theorem cart_one_entry_per_product_witness :
    OneEntryPerProduct seedStore ∧
    OneEntryPerProduct (getCart seedStore "u1").1 ∧
    OneEntryPerProduct (addToCart seedStore (some ⟨"p1", 3⟩) "u1").1 ∧
    OneEntryPerProduct (updateCart seedStore (some ⟨"p1", 3⟩) "u1").1 ∧
    OneEntryPerProduct (removeFromCart seedStore "p1" "u1").1 :=
  have hinv : OneEntryPerProduct seedStore := by
    unfold OneEntryPerProduct
    decide
  have h := cart_one_entry_per_product seedStore (some ⟨"p1", 3⟩) "p1" "u1" hinv
  ⟨hinv, h.1, h.2.1, h.2.2.1, h.2.2.2.1⟩

/-! ## Product identifiers -/

/-- Serving POST, PUT and DELETE requests leads from a reachable catalog to a
reachable catalog. -/
theorem serve_reachable (rs : List ProductRequest) (s : Store)
    (hs : ReachableProducts s.products)
    (hrs : ∀ r ∈ rs, r.Method = "POST" ∨ r.Method = "PUT" ∨ r.Method = "DELETE") :
    ReachableProducts (serve s rs).products := by
  induction rs generalizing s with
  | nil => exact hs
  | cons r rest ih =>
    have hr := hrs r (List.mem_cons_self _ _)
    have hstep := ReachableProducts.request s r hs hr
    exact ih (Handler s r).1 hstep fun q hq => hrs q (List.mem_cons_of_mem _ hq)

/-- C13 (the code at two failing inputs): from the seeded catalog, `POST
/products`, `DELETE /products/p1`, `POST /products` leaves a reachable catalog
in which the two created products both have the id "p" followed by
`string(4)`; and 46 times `POST /products` leaves a reachable catalog whose
last product has the id "p" followed by `string(49)`, which is "p1", the id of
the first seeded product. In both catalogs the ids are not pairwise
distinct. -/
theorem product_ids_collide :
    ReachableProducts (serve seedStore [postWebcam, deleteKeyboard, postWebcam]).products ∧
    (serve seedStore [postWebcam, deleteKeyboard, postWebcam]).products.map (fun p => p.ID)
      = ["p2", "p3", "p\x04", "p\x04"] ∧
    ¬ ((serve seedStore [postWebcam, deleteKeyboard, postWebcam]).products.map
        (fun p => p.ID)).Nodup ∧
    ReachableProducts (serve seedStore (List.replicate 46 postWebcam)).products ∧
    ((serve seedStore (List.replicate 46 postWebcam)).products.map (fun p => p.ID)).head?
      = some "p1" ∧
    ((serve seedStore (List.replicate 46 postWebcam)).products.map (fun p => p.ID)).getLast?
      = some "p1" ∧
    (serve seedStore (List.replicate 46 postWebcam)).products.length = 49 ∧
    ¬ ((serve seedStore (List.replicate 46 postWebcam)).products.map
        (fun p => p.ID)).Nodup := by
  refine ⟨?_, by decide, by decide, ?_, by decide, by decide, by decide, by decide⟩
  · exact serve_reachable _ seedStore ReachableProducts.seed (by decide)
  · exact serve_reachable _ seedStore ReachableProducts.seed (by decide)

/-! ## Reachable stores and cart lines without a product -/

theorem Handler_carts (s : Store) (r : ProductRequest) : (Handler s r).1.carts = s.carts := by
  unfold Handler
  split
  · rfl
  · split
    · unfold handleSingleProduct
      split
      · rfl
      · split
        · rfl
        · split
          · split <;> rfl
          · split <;> rfl
    · split
      · rfl
      · split
        · split <;> rfl
        · rfl

theorem oneEntry_of_carts {s t : Store} (h : t.carts = s.carts)
    (hinv : OneEntryPerProduct s) : OneEntryPerProduct t := by
  unfold OneEntryPerProduct at hinv ⊢
  rw [h]
  exact hinv

theorem createOrder_oneEntry (s : Store) (body : Option OrderRequest) (userID : String)
    (now : Int) (hinv : OneEntryPerProduct s) :
    OneEntryPerProduct (createOrder s body userID now).1 := by
  cases body with
  | none => exact hinv
  | some req =>
    cases hc : findCart s.carts userID with
    | none => simpa [createOrder, hc] using hinv
    | some r =>
      obtain ⟨i, cart⟩ := r
      by_cases hlen : cart.Items.length = 0
      · simpa [createOrder, hc, hlen] using hinv
      · cases hl : orderLoop cart.Items s.products [] Float64.zero with
        | insufficient ps nm =>
          have e : (createOrder s (some req) userID now).1.carts = s.carts := by
            simp [createOrder, hc, hlen, hl]
          exact oneEntry_of_carts e hinv
        | done ps ois tot =>
          have e : (createOrder s (some req) userID now).1.carts
              = s.carts.set i ⟨cart.UserID, []⟩ := by
            simp [createOrder, hc, hlen, hl, clearCart]
          have key : OneEntryPerProduct ⟨s.products, s.carts.set i ⟨cart.UserID, []⟩, s.orders⟩ :=
            oneEntry_set (Cart.mk cart.UserID []) hinv hc (findCart_some hc).2 (by simp)
          exact oneEntry_of_carts e key

/-- Every store the handlers can produce from the seeded stores has at most
one entry per product id in each cart, and one cart per user id. -/
theorem reachable_oneEntry {s : Store} (hs : ReachableStore s) : OneEntryPerProduct s := by
  induction hs with
  | seed created =>
    have h0 : OneEntryPerProduct seedStore := by
      unfold OneEntryPerProduct
      decide
    exact oneEntry_of_carts rfl h0
  | afterGetCart s userID _ ih => exact getCart_oneEntry s userID ih
  | afterAddToCart s body userID _ ih => exact addToCart_oneEntry s body userID ih
  | afterUpdateCart s body userID _ ih => exact updateCart_oneEntry s body userID ih
  | afterRemoveFromCart s productID userID _ ih =>
    exact removeFromCart_oneEntry s productID userID ih
  | afterCreateOrder s body userID now _ ih => exact createOrder_oneEntry s body userID now ih
  | afterProductRequest s r _ ih => exact oneEntry_of_carts (Handler_carts s r) ih

theorem filterMap_filter_ne {α β : Type} [DecidableEq α] (f : α → Option β) (a : α)
    (ha : f a = none) (l : List α) :
    (l.filter (fun x => decide (x ≠ a))).filterMap f = l.filterMap f := by
  induction l with
  | nil => rfl
  | cons x l ih =>
    by_cases hx : x = a
    · subst hx
      simp only [ne_eq, decide_not] at ih
      simp [List.filterMap_cons, ha, ih]
    · simp only [ne_eq, decide_not] at ih
      simp [List.filter_cons, hx, List.filterMap_cons, ih]

/-- C5: in every store the handlers can produce from the seeded stores, when
the cart of the user contains an entry `bad` whose product id is not in the
catalog and every other entry has a product in the catalog with at least the
stock asked for, `createOrder` (given a request body that decodes) answers 201
with the created order, no line of that order has the product id of `bad`, and
`bad` adds nothing to the TotalAmount: it is the running total of the entries
other than `bad`. -/
theorem createOrder_skips_absent (s : Store) (hs : ReachableStore s) (req : OrderRequest)
    (userID : String) (now : Int) (ci : Nat) (cart : Cart) (bad : CartItem)
    (hcart : findCart s.carts userID = some (ci, cart))
    (hbad : bad ∈ cart.Items)
    (habsent : findProduct s.products bad.ProductID = none)
    (hothers : ∀ it ∈ cart.Items, it ≠ bad → ∃ j p,
      findProduct s.products it.ProductID = some (j, p) ∧ it.Quantity ≤ p.Stock) :
    ∃ o, (createOrder s (some req) userID now).2 = ⟨201, .order o⟩ ∧
      (∀ oi ∈ o.Items, oi.ProductID ≠ bad.ProductID) ∧
      o.TotalAmount =
        expectedTotal s.products (cart.Items.filter (fun it => decide (it ≠ bad))) := by
  have hnodup : (cart.Items.map (fun it => it.ProductID)).Nodup :=
    oneEntry_of_find (reachable_oneEntry hs) hcart
  have hne : cart.Items ≠ [] := List.ne_nil_of_mem hbad
  have hstock : ∀ it ∈ cart.Items, ∀ i p,
      findProduct s.products it.ProductID = some (i, p) → it.Quantity ≤ p.Stock := by
    intro it hit i p hf
    by_cases hib : it = bad
    · subst hib
      rw [habsent] at hf
      cases hf
    · obtain ⟨j, q, hq, hle⟩ := hothers it hit hib
      rw [hq] at hf
      cases hf
      exact hle
  obtain ⟨ps, ois, tot, hloop⟩ :=
    orderLoop_sufficient cart.Items s.products [] Float64.zero hnodup hstock
  obtain ⟨hitems, htot⟩ := orderLoop_done hloop
  rw [createOrder_of_done hcart hne hloop]
  refine ⟨_, rfl, ?_, ?_⟩
  · intro oi hoi hid
    simp only [hitems, List.nil_append, expectedItems, List.mem_filterMap] at hoi
    obtain ⟨it, -, hit⟩ := hoi
    unfold orderItemOf at hit
    cases hf : findProduct s.products it.ProductID with
    | none => simp [hf] at hit
    | some r =>
      obtain ⟨j, p⟩ := r
      simp only [hf, Option.map_some', Option.some.injEq] at hit
      subst hit
      simp only at hid
      have : ∀ q ∈ s.products, q.ID ≠ bad.ProductID := findProduct_none.1 habsent
      exact this p (List.getElem?_mem (findProduct_some hf).1) hid
  · have hla : lineAmount s.products bad = none := by simp [lineAmount, habsent]
    simp only [htot, expectedTotal]
    rw [filterMap_filter_ne _ bad hla]

theorem createOrder_skips_absent_witness :
    ReachableStore staleCartStore ∧
    ∃ o, (createOrder staleCartStore (some someRequest) "u1" 7).2 = ⟨201, .order o⟩ ∧
      (∀ oi ∈ o.Items, oi.ProductID ≠ "p9") ∧
      o.TotalAmount = expectedTotal staleCartStore.products
        (([⟨"p1", 2⟩, ⟨"p9", 1⟩] : List CartItem).filter
          (fun it => decide (it ≠ (⟨"p9", 1⟩ : CartItem)))) :=
  have hs : ReachableStore staleCartStore :=
    ReachableStore.afterAddToCart seedStore (some ⟨"p9", 1⟩) "u1" (ReachableStore.seed 0)
  ⟨hs, createOrder_skips_absent staleCartStore hs someRequest "u1" 7 0
    ⟨"u1", [⟨"p1", 2⟩, ⟨"p9", 1⟩]⟩ ⟨"p9", 1⟩ (by decide) (by decide) (by decide) (by
      intro it hit hne
      simp only [List.mem_cons, List.mem_singleton, List.not_mem_nil, or_false] at hit
      rcases hit with rfl | rfl
      · exact ⟨0, seedProducts.get ⟨0, by decide⟩, by decide, by decide⟩
      · exact absurd rfl hne)⟩

end Shop
